/-
Verification of the disk-oriented key-value storage engine:
a page buffer pool (two source variants: a clock / second-chance manager
and a simpler map-based manager), a B+Tree index over binary pages, and a
bulk loader.  The Go source is embedded shallowly: pages are modelled at
64-bit word granularity (every page access in the source is an aligned
8-byte big-endian load or store, and every `copy` moves a word-aligned
range), machine integers become `Nat` (values denote uint64 contents;
stores reduce mod 2^64), `int` counters that can go negative become `Int`,
fallible operations return `Except`, and a Go `panic` or a nil-pointer
dereference caused by a discarded error is the distinguished error
`Err.Panic`.  State-mutating methods take and return the manager state.
-/
import Mathlib

set_option maxRecDepth 80000
set_option linter.unusedVariables false

namespace manager

/-- Errors of the engine, following the spec's taxonomy plus the two
outcomes a shallow embedding needs: `Panic` for a Go panic or a
nil-pointer dereference reached through a discarded error, and
`outOfFuel` for exhaustion of the fuel that bounds recursion over the
page graph (the Go source recurses without a bound). -/
inductive Err where
| NotFound
| PoolExhausted
| InvariantViolation
| Panic
| outOfFuel
deriving DecidableEq

/-- PageSize = 4096, from `const PageSize = 4096` (both manager variants). -/
def PageSize : Nat := 4096

/-- MaxFrames = 100, from `const MaxFrames = 100` (both manager variants). -/
def MaxFrames : Nat := 100

/-- Page identifiers are uint64 (`type PageID uint64`). -/
abbrev PageID := Nat

/-- A page's raw contents `[PageSize]byte`.  Every access performed by this
codebase is an aligned 8-byte big-endian word, so a page is modelled as the
map from word index `w` to the uint64 stored at byte offset `8*w`. -/
def Page : Type := Nat → Nat

/-- Zero-initialized page contents (Go's zero value for `[PageSize]byte`). -/
def Page.zeros : Page := fun _ => 0

/-- Reads the big-endian uint64 at byte offset `off` (always 8-aligned in
this codebase): `binary.BigEndian.Uint64(data[off:])`. -/
def getU64 (p : Page) (off : Nat) : Nat := p (off / 8)

/-- Writes the big-endian uint64 `v` at byte offset `off` (always 8-aligned
in this codebase): `binary.BigEndian.PutUint64(data[off:], v)`. -/
def putU64 (p : Page) (off v : Nat) : Page :=
  fun w => if w = off / 8 then v % 2 ^ 64 else p w

/-- Go's `copy(dst[d:], src[s:e])` between (possibly identical) pages.
Go copies `min(len(dst), len(src))` bytes and permits overlap, reading the
source as it was before the copy; all such copies in this codebase move a
word-aligned range, so the copy is a single range override at word level. -/
def copyBytes (dst src : Page) (d s e : Nat) : Page :=
  let n := min (e - s) (PageSize - d) / 8
  fun w => if d / 8 ≤ w ∧ w < d / 8 + n then src (w - d / 8 + s / 8) else dst w

/-- Serialization of a page id as its 8 big-endian bytes
(`func Sizzle(pageID PageID) [8]byte`); at word granularity the round trip
through bytes is the identity on the uint64 value. -/
def Sizzle (pageID : PageID) : Nat := pageID % 2 ^ 64

/-- Deserialization of 8 big-endian bytes back to a page id
(`func Unsizzle(buf [8]byte) PageID`). -/
def Unsizzle (v : Nat) : PageID := v % 2 ^ 64

end manager

/-!  The clock (second-chance) buffer manager, the `package manager`
variant with frames table, page table, clock hand and a disk map.
Frames are preallocated once and only overwritten in place, so a Go
pointer `&victim.data` into a frame is stable and is modelled as the
frame's index; the source's `bm.disk[victim.pageID] = &victim.data`
stores such a pointer, hence `disk` maps a page id to the index of the
frame whose data array the entry aliases, and the bytes the backing
store holds for a page are the aliased frame's current bytes.  -/

namespace manager0

open manager

/-- Buffer frame (`type bufferPage struct`): held page id, raw data,
dirty flag, pin count (a Go `int`) and the clock reference bit. -/
structure bufferPage where
  pageID : PageID
  data : Page
  isDirty : Bool
  pinCount : Int
  refbit : Bool

/-- Manager state (`type BufferManager struct`): the disk map (page id to
the frame index its stored `*[PageSize]byte` pointer aliases), the frame
table indexed 0 .. MaxFrames-1, the page table, the clock hand and the
next page id.  The mutex only serializes calls and has no sequential
effect. -/
structure BufferManager where
  disk : PageID → Option Nat
  frames : Nat → bufferPage
  pageTable : PageID → Option Nat
  clockHand : Nat
  nextPageID : PageID

/-- NewBufferManager: empty maps and MaxFrames zeroed frames. -/
def NewBufferManager : BufferManager :=
  { disk := fun _ => none
    frames := fun _ => { pageID := 0, data := Page.zeros, isDirty := false,
                         pinCount := 0, refbit := false }
    pageTable := fun _ => none
    clockHand := 0
    nextPageID := 0 }

/-- Overwrites frame `i` in place (`*victim = ...` or field updates through
the frame pointer). -/
def setFrame (bm : BufferManager) (i : Nat) (f : bufferPage) : BufferManager :=
  { bm with frames := fun j => if j = i then f else bm.frames j }

/-- Bytes the backing store currently holds for `pageID`: the disk map
stores pointers into frames, so the entry's bytes are the aliased frame's
current data. -/
def diskBytes (bm : BufferManager) (pageID : PageID) : Option Page :=
  (bm.disk pageID).map fun i => (bm.frames i).data

/-- Clock sweep of `findVictim`: up to `2*MaxFrames` probes starting at the
hand; pinned frames are skipped, an unpinned frame with the reference bit
set gets the bit cleared and one more chance, and the first unpinned frame
with the bit already clear is the victim (the hand advances past it).  The
source's counter runs `i = 0 .. 2*MaxFrames - 1`; the recursion here is on
the remaining probe count `2*MaxFrames - i`, which is the loop variant. -/
def findVictimLoop (bm : BufferManager) (i : Nat) : (remaining : Nat) →
    Except Err Nat × BufferManager
  | 0 => (.error .PoolExhausted, bm)
  | remaining + 1 =>
    let idx := (bm.clockHand + i) % MaxFrames
    let frame := bm.frames idx
    if frame.pinCount > 0 then
      findVictimLoop bm (i + 1) remaining
    else if frame.refbit then
      findVictimLoop (setFrame bm idx { frame with refbit := false }) (i + 1) remaining
    else
      (.ok idx, { bm with clockHand := (idx + 1) % MaxFrames })

/-- findVictim starts the sweep at probe 0 with 2*MaxFrames probes left. -/
def findVictim (bm : BufferManager) : Except Err Nat × BufferManager :=
  findVictimLoop bm 0 (2 * MaxFrames)

/-- PinPage.  On a page-table hit the frame's pin count is incremented and
its reference bit set, and the frame (returned in the source as a pointer)
is returned as its index.  On a miss the disk map is consulted; if absent
the call fails with NotFound (`errors.New("page does not exist")`).
Otherwise a victim is found (failure is `PoolExhausted`, "buffer full"),
a dirty victim's pointer is stored into the disk map, the frame is
overwritten with the loaded bytes, pin count 1, reference bit set and a
clear dirty flag, and then the source executes
`delete(bm.pageTable, victim.pageID)` — but `victim.pageID` has already
been overwritten with the requested id, so the deletion removes the new
id (a no-op) and the evicted page's stale mapping survives; finally the
new mapping is installed. -/
def PinPage (bm : BufferManager) (pageID : PageID) :
    Except Err Nat × BufferManager :=
  match bm.pageTable pageID with
  | some idx =>
      let frame := bm.frames idx
      (.ok idx,
        setFrame bm idx { frame with pinCount := frame.pinCount + 1, refbit := true })
  | none =>
      match bm.disk pageID with
      | none => (.error .NotFound, bm)
      | some srcIdx =>
          match findVictim bm with
          | (.error _, bm1) => (.error .PoolExhausted, bm1)
          | (.ok victimIdx, bm1) =>
              let victim := bm1.frames victimIdx
              let bm2 :=
                if victim.isDirty then
                  { bm1 with disk := fun p =>
                      if p = victim.pageID then some victimIdx else bm1.disk p }
                else bm1
              let loaded := (bm2.frames srcIdx).data
              let bm3 := setFrame bm2 victimIdx
                { pageID := pageID, data := loaded, isDirty := false,
                  pinCount := 1, refbit := true }
              let bm4 := { bm3 with pageTable := fun p =>
                  if p = pageID then none else bm3.pageTable p }
              let bm5 := { bm4 with pageTable := fun p =>
                  if p = pageID then some victimIdx else bm4.pageTable p }
              (.ok victimIdx, bm5)

/-- UnpinPage: fails ("page not in buffer") when the page is not in the
page table; otherwise decrements the pin count and, if it went negative,
panics with "pin count negative" (spec taxonomy: an invariant violation,
fatal); otherwise ORs the dirty flag. -/
def UnpinPage (bm : BufferManager) (pageID : PageID) (isDirty : Bool) :
    Except Err Unit × BufferManager :=
  match bm.pageTable pageID with
  | none => (.error .NotFound, bm)
  | some idx =>
      let frame := bm.frames idx
      let newCount := frame.pinCount - 1
      if newCount < 0 then
        (.error .InvariantViolation,
          setFrame bm idx { frame with pinCount := newCount })
      else
        (.ok (),
          setFrame bm idx
            { frame with pinCount := newCount, isDirty := frame.isDirty || isDirty })

/-- FlushPage: if resident and dirty, stores the frame pointer into the
disk map (`bm.disk[pageID] = &frame.data`) and clears the dirty flag;
otherwise a no-op returning nil. -/
def FlushPage (bm : BufferManager) (pageID : PageID) :
    Except Err Unit × BufferManager :=
  match bm.pageTable pageID with
  | none => (.ok (), bm)
  | some idx =>
      let frame := bm.frames idx
      if frame.isDirty then
        (.ok (),
          setFrame
            { bm with disk := fun p => if p = pageID then some idx else bm.disk p }
            idx { frame with isDirty := false })
      else (.ok (), bm)

/-- NewPage: allocates the next page id (the counter increments even on
the failure path), finds a victim (failure is "buffer full"), stores a
dirty victim's frame pointer into the disk map, overwrites the frame with
a zeroed page, pin count 1, dirty flag set and reference bit set, then
performs the same no-op deletion of the new id from the page table as
`PinPage` (the evicted page's stale mapping survives) and installs the
new mapping.  Returns the page id and (as the data pointer) the frame
index. -/
def NewPage (bm : BufferManager) :
    Except Err (PageID × Nat) × BufferManager :=
  let pageID := bm.nextPageID
  let bm0 := { bm with nextPageID := bm.nextPageID + 1 }
  match findVictim bm0 with
  | (.error _, bm1) => (.error .PoolExhausted, bm1)
  | (.ok victimIdx, bm1) =>
      let victim := bm1.frames victimIdx
      let bm2 :=
        if victim.isDirty then
          { bm1 with disk := fun p =>
              if p = victim.pageID then some victimIdx else bm1.disk p }
        else bm1
      let bm3 := setFrame bm2 victimIdx
        { pageID := pageID, data := Page.zeros, isDirty := true,
          pinCount := 1, refbit := true }
      let bm4 := { bm3 with pageTable := fun p =>
          if p = pageID then none else bm3.pageTable p }
      let bm5 := { bm4 with pageTable := fun p =>
          if p = pageID then some victimIdx else bm4.pageTable p }
      (.ok (pageID, victimIdx), bm5)

end manager0

/-!  The B+Tree over the clock buffer manager (`package btree`,
BtreeInterface.go).  The tree operations read and write node pages through
the pointer returned by `PinPage`/`NewPage`; such a pointer is stable per
frame, so it is modelled as the frame index, and reads and writes through
it act on the current manager state.  Go's `defer UnpinPage(...)` runs
after the function body, including on error returns, and its own error is
discarded.  The statements `newPageID, newData, _ := bt.bm.NewPage()`
discard the allocation error; when allocation fails the returned data
pointer is nil and the next line dereferences it, a runtime panic,
modelled as `Err.Panic`.  Go's integer division (toward zero) agrees with
Lean's on the nonnegative operands that reach every division below (`low`
starts at 0 and never decreases, so `low + high ≥ 0` whenever `low ≤ high`).
The dead declarations of the source file (the second, never-called
`insertInternal` overload taking `newChildID`, `findParent` and
`createNewRoot`) are not reached from `Insert`/`Get` and are not modelled. -/

namespace btree

open manager manager0

def leafNode : Nat := 0

def internalNode : Nat := 1

def leafHeaderSize : Nat := 32

def internalHeaderSize : Nat := 16

def keySize : Nat := 8

def valueSize : Nat := 8

def ptrSize : Nat := 8

/-- maxLeafEntries = (PageSize - leafHeaderSize) / (keySize + valueSize) = 254. -/
def maxLeafEntries : Nat := (PageSize - leafHeaderSize) / (keySize + valueSize)

/-- maxInternalKeys = (PageSize - internalHeaderSize - ptrSize) / (keySize + ptrSize) = 254. -/
def maxInternalKeys : Nat := (PageSize - internalHeaderSize - ptrSize) / (keySize + ptrSize)

/-- Tree handle: the buffer manager reference is threaded explicitly, so
only the root page id remains. -/
structure BTree where
  rootPageID : PageID

/-- Reads the uint64 at byte offset `off` of the page held by frame `idx`
(a read through the pinned page pointer). -/
def readU64 (bm : BufferManager) (idx off : Nat) : Nat :=
  getU64 (bm.frames idx).data off

/-- Applies a page transformation to the data of frame `idx` (writes
through the pinned page pointer). -/
def modData (bm : BufferManager) (idx : Nat) (f : Page → Page) : BufferManager :=
  let fr := bm.frames idx
  setFrame bm idx { fr with data := f fr.data }

/-- initializeLeafPage: node type 0, zero entry count, zero next and
previous leaf pointers. -/
def initializeLeafPage (data : Page) : Page :=
  putU64 (putU64 (putU64 (putU64 data 0 leafNode) 8 0) 16 0) 24 0

/-- initializeInternalPage: node type 1, zero key count. -/
def initializeInternalPage (data : Page) : Page :=
  putU64 (putU64 data 0 internalNode) 8 0

/-- NewBTree: allocates the root page (discarding the allocation error, as
the source does) and formats it as an empty leaf. -/
def NewBTree (bm : BufferManager) : BTree × BufferManager :=
  match NewPage bm with
  | (.ok (rootID, idx), bm1) =>
      ({ rootPageID := rootID }, modData bm1 idx initializeLeafPage)
  | (.error _, bm1) => ({ rootPageID := 0 }, bm1)

/-- Binary-search loop of searchLeaf over the sorted (key, value) pairs:
exact match returns the value, otherwise the bounds close in and the
search fails with NotFound ("key not found"). -/
def searchLeafLoop (data : Page) (key : Nat) : (gas : Nat) → (low high : Int) →
    Except Err Nat
  | 0, _, _ => .error .NotFound
  | gas + 1, low, high =>
    if low ≤ high then
      let mid := (low + high) / 2
      let offset := leafHeaderSize + mid.toNat * (keySize + valueSize)
      let currentKey := getU64 data offset
      if key = currentKey then .ok (getU64 data (offset + keySize))
      else if key < currentKey then searchLeafLoop data key gas low (mid - 1)
      else searchLeafLoop data key gas (mid + 1) high
    else .error .NotFound

/-- searchLeaf: binary search between 0 and int(numKeys) - 1.  The loop
variant `high + 1 - low` (initially numKeys) strictly decreases on every
iteration and is passed as the structural recursion argument, so its
exhaustion case is never reached. -/
def searchLeaf (data : Page) (key : Nat) : Except Err Nat :=
  let numKeys := getU64 data 8
  searchLeafLoop data key numKeys 0 ((numKeys : Int) - 1)

/-- Binary-search loop of searchInternal: returns the child index left of
the smallest separator greater than the key (or the rightmost child). -/
def searchInternalLoop (data : Page) (key : Nat) : (gas : Nat) → (low high : Int) →
    (childIndex : Nat) → Nat
  | 0, _, _, childIndex => childIndex
  | gas + 1, low, high, childIndex =>
    if low ≤ high then
      let mid := (low + high) / 2
      let keyOffset := internalHeaderSize + mid.toNat * (ptrSize + keySize) + ptrSize
      let currentKey := getU64 data keyOffset
      if key < currentKey then searchInternalLoop data key gas low (mid - 1) mid.toNat
      else searchInternalLoop data key gas (mid + 1) high (mid.toNat + 1)
    else childIndex

/-- search: pins the page, dispatches on the node tag (leaf search or
descent into the selected child), and the deferred unpin (clean) runs
after the body, its error discarded.  The descent recursion is bounded by
fuel; the source has no such bound. -/
def search (fuel : Nat) (bm : BufferManager) (pageID : PageID) (key : Nat) :
    Except Err Nat × BufferManager :=
  match fuel with
  | 0 => (.error .outOfFuel, bm)
  | fuel + 1 =>
    match PinPage bm pageID with
    | (.error e, bm1) => (.error e, bm1)
    | (.ok idx, bm1) =>
      let data := (bm1.frames idx).data
      let nodeType := getU64 data 0
      let (res, bm2) :=
        if nodeType = leafNode then (searchLeaf data key, bm1)
        else
          let numKeys := getU64 data 8
          let childIndex := searchInternalLoop data key numKeys 0 ((numKeys : Int) - 1) 0
          let ptrOffset := internalHeaderSize + childIndex * (ptrSize + keySize)
          let childID := Unsizzle (getU64 data ptrOffset)
          search fuel bm1 childID key
      let (_, bm3) := UnpinPage bm2 pageID false
      (res, bm3)

/-- Get: search from the root. -/
def Get (fuel : Nat) (bt : BTree) (bm : BufferManager) (key : Nat) :
    Except Err Nat × BufferManager :=
  search fuel bm bt.rootPageID key

/-- Binary-search loop of findLeafInsertPosition: position of an exact
match, else the final value of `low`. -/
def findLeafInsertPositionLoop (data : Page) (key : Nat) : (gas : Nat) →
    (low high : Int) → Nat
  | 0, low, _ => low.toNat
  | gas + 1, low, high =>
    if low ≤ high then
      let mid := (low + high) / 2
      let offset := leafHeaderSize + mid.toNat * (keySize + valueSize)
      let currentKey := getU64 data offset
      if key = currentKey then mid.toNat
      else if key < currentKey then findLeafInsertPositionLoop data key gas low (mid - 1)
      else findLeafInsertPositionLoop data key gas (mid + 1) high
    else low.toNat

/-- findLeafInsertPosition with bounds 0 and int(numKeys) - 1; the loop
variant (initially numKeys) is the structural recursion argument. -/
def findLeafInsertPosition (data : Page) (numKeys key : Nat) : Nat :=
  findLeafInsertPositionLoop data key numKeys 0 ((numKeys : Int) - 1)

/-- Binary-search loop of findInternalInsertPosition: `pos` starts at Go's
zero value and tracks mid (key smaller) or mid+1 (key at least the
separator). -/
def findInternalInsertPositionLoop (data : Page) (key : Nat) : (gas : Nat) →
    (low high : Int) → (pos : Nat) → Nat
  | 0, _, _, pos => pos
  | gas + 1, low, high, pos =>
    if low ≤ high then
      let mid := (low + high) / 2
      let keyOffset := internalHeaderSize + mid.toNat * (ptrSize + keySize) + ptrSize
      let currentKey := getU64 data keyOffset
      if key < currentKey then findInternalInsertPositionLoop data key gas low (mid - 1) mid.toNat
      else findInternalInsertPositionLoop data key gas (mid + 1) high (mid.toNat + 1)
    else pos

/-- findInternalInsertPosition with bounds 0 and int(numKeys) - 1; the loop
variant (initially numKeys) is the structural recursion argument. -/
def findInternalInsertPosition (data : Page) (numKeys key : Nat) : Nat :=
  findInternalInsertPositionLoop data key numKeys 0 ((numKeys : Int) - 1) 0

/-- insertLeafEntry: shifts the pairs from `pos` up one slot
(`copy(data[startOffset+16:], data[startOffset:endOffset])`), writes the
new key and value at `pos`, and bumps the entry count. -/
def insertLeafEntry (bm : BufferManager) (idx : Nat) (numKeys pos key value : Nat) :
    BufferManager :=
  let startOffset := leafHeaderSize + pos * (keySize + valueSize)
  let endOffset := leafHeaderSize + numKeys * (keySize + valueSize)
  modData bm idx fun p =>
    putU64 (putU64 (putU64
      (copyBytes p p (startOffset + keySize + valueSize) startOffset endOffset)
      startOffset key) (startOffset + keySize) value) 8 (numKeys + 1)

/-- splitLeaf: copies the tail of the old leaf from entry `splitPos` into
the new page, sets the two entry counts, and performs the source's
relinking writes in order: new.next := old.next, new.prev := old.prev,
then old.next := new.prev (which has just become old.prev). -/
def splitLeaf (bm : BufferManager) (oldIdx newIdx : Nat) (splitPos : Nat) :
    BufferManager :=
  let old0 := (bm.frames oldIdx).data
  let bm1 := modData bm newIdx fun newp =>
    copyBytes newp old0 leafHeaderSize
      (leafHeaderSize + splitPos * (keySize + valueSize)) PageSize
  let oldNumKeys := readU64 bm1 oldIdx 8
  let bm2 := modData bm1 oldIdx fun p => putU64 p 8 splitPos
  let bm3 := modData bm2 newIdx fun p => putU64 p 8 (oldNumKeys - splitPos)
  let nextPage := readU64 bm3 oldIdx 16
  let bm4 := modData bm3 newIdx fun p => putU64 p 16 nextPage
  let bm5 := modData bm4 newIdx fun p => putU64 p 24 (readU64 bm4 oldIdx 24)
  modData bm5 oldIdx fun p => putU64 p 16 (readU64 bm5 newIdx 24)

/-- insertLeaf: exact-match overwrite in place; shift-insert while spare
capacity remains; otherwise allocate (error discarded, nil dereference on
failure), split at numKeys/2, insert into the appropriate half, and
perform the linked-list writes of the source: new.next := old.next as it
reads after splitLeaf already overwrote it, new.prev := this page, and
old.next := the new page. -/
def insertLeaf (bm : BufferManager) (dataIdx : Nat) (pageID : PageID) (key value : Nat) :
    Except Err (Nat × PageID) × BufferManager :=
  let numKeys := readU64 bm dataIdx 8
  let insertPos := findLeafInsertPosition (bm.frames dataIdx).data numKeys key
  let offset := leafHeaderSize + insertPos * (keySize + valueSize)
  if insertPos < numKeys ∧ readU64 bm dataIdx offset = key then
    (.ok (0, 0), modData bm dataIdx fun p => putU64 p (offset + keySize) value)
  else if numKeys < maxLeafEntries then
    (.ok (0, 0), insertLeafEntry bm dataIdx numKeys insertPos key value)
  else
    match NewPage bm with
    | (.error _, bm1) => (.error .Panic, bm1)
    | (.ok (newPageID, newIdx), bm1) =>
      let bm2 := modData bm1 newIdx initializeLeafPage
      let splitPos := numKeys / 2
      let splitKey := readU64 bm2 dataIdx (leafHeaderSize + splitPos * (keySize + valueSize))
      let bm3 := splitLeaf bm2 dataIdx newIdx splitPos
      let bm4 :=
        if insertPos > splitPos then
          insertLeafEntry bm3 newIdx (numKeys - splitPos) (insertPos - splitPos) key value
        else
          insertLeafEntry bm3 dataIdx splitPos insertPos key value
      let nextPage := readU64 bm4 dataIdx 16
      let bm5 := modData bm4 newIdx fun p => putU64 p 16 nextPage
      let bm6 := modData bm5 newIdx fun p => putU64 p 24 pageID
      let bm7 := modData bm6 dataIdx fun p => putU64 p 16 newPageID
      (.ok (splitKey, newPageID), bm7)

/-- insertInternalEntry: shifts the (child, key) pairs from `pos` up one
slot — the copied range ends at the last key, so the shift lands on and
overwrites the trailing child pointer — then writes the NEW child id at
the child slot of `pos` and the key after it, and bumps the key count. -/
def insertInternalEntry (bm : BufferManager) (idx : Nat) (numKeys pos key : Nat)
    (childID : PageID) : BufferManager :=
  let startOffset := internalHeaderSize + pos * (ptrSize + keySize)
  let endOffset := internalHeaderSize + numKeys * (ptrSize + keySize)
  modData bm idx fun p =>
    putU64 (putU64 (putU64
      (copyBytes p p (startOffset + ptrSize + keySize) startOffset endOffset)
      startOffset (Sizzle childID)) (startOffset + ptrSize) key) 8 (numKeys + 1)

/-- splitInternal: reads the promoted key at `splitPos`, copies the pairs
after it into the new page, and sets the two key counts. -/
def splitInternal (bm : BufferManager) (oldIdx newIdx : Nat) (splitPos : Nat) :
    Nat × BufferManager :=
  let promotedKey := readU64 bm oldIdx
    (internalHeaderSize + splitPos * (ptrSize + keySize) + ptrSize)
  let startOffset := internalHeaderSize + (splitPos + 1) * (ptrSize + keySize)
  let old0 := (bm.frames oldIdx).data
  let bm1 := modData bm newIdx fun newp =>
    copyBytes newp old0 internalHeaderSize startOffset PageSize
  let oldNumKeys := readU64 bm1 oldIdx 8
  let bm2 := modData bm1 oldIdx fun p => putU64 p 8 splitPos
  let bm3 := modData bm2 newIdx fun p => putU64 p 8 (oldNumKeys - splitPos - 1)
  (promotedKey, bm3)

/-- insertInternal (the recursive method reached from insert): finds the
descent position, recurses into the child — the recursive `bt.insert`
call is the function argument `descend`, which `insert` instantiates with
itself at one less fuel — and on promotion inserts the (key, child) pair
if capacity remains, else splits at numKeys/2 and promotes the middle key
with the new page. -/
def insertInternal
    (descend : BufferManager → PageID → Nat → Nat →
      Except Err (Nat × PageID) × BufferManager)
    (bm : BufferManager) (dataIdx : Nat) (pageID : PageID) (key value : Nat) :
    Except Err (Nat × PageID) × BufferManager :=
  let numKeys := readU64 bm dataIdx 8
  let insertPos := findInternalInsertPosition (bm.frames dataIdx).data numKeys key
  let childOffset := internalHeaderSize + insertPos * (ptrSize + keySize)
  let childID := Unsizzle (readU64 bm dataIdx childOffset)
  match descend bm childID key value with
  | (.error e, bm1) => (.error e, bm1)
  | (.ok (promotedKey, newChild), bm1) =>
    if newChild = 0 then (.ok (0, 0), bm1)
    else if numKeys < maxInternalKeys then
      (.ok (0, 0), insertInternalEntry bm1 dataIdx numKeys insertPos promotedKey newChild)
    else
      match NewPage bm1 with
      | (.error _, bm2) => (.error .Panic, bm2)
      | (.ok (newPageID, newIdx), bm2) =>
        let bm3 := modData bm2 newIdx initializeInternalPage
        let splitPos := numKeys / 2
        let (promotedSplitKey, bm4) := splitInternal bm3 dataIdx newIdx splitPos
        let bm5 :=
          if insertPos > splitPos then
            insertInternalEntry bm4 newIdx (numKeys - splitPos - 1)
              (insertPos - splitPos - 1) promotedKey newChild
          else
            insertInternalEntry bm4 dataIdx splitPos insertPos promotedKey newChild
        (.ok (promotedSplitKey, newPageID), bm5)

/-- insert: pins the page, dispatches to the leaf or internal case, and
the deferred unpin (dirty) runs after the body, its error discarded.  The
descent recursion is bounded by fuel; the source has no such bound. -/
def insert : (fuel : Nat) → BufferManager → PageID → Nat → Nat →
    Except Err (Nat × PageID) × BufferManager
  | 0, bm, _, _, _ => (.error .outOfFuel, bm)
  | fuel + 1, bm, pageID, key, value =>
    match PinPage bm pageID with
    | (.error e, bm1) => (.error e, bm1)
    | (.ok idx, bm1) =>
      let (res, bm2) :=
        if readU64 bm1 idx 0 = leafNode then insertLeaf bm1 idx pageID key value
        else insertInternal (fun b p k v => insert fuel b p k v) bm1 idx pageID key value
      let (_, bm3) := UnpinPage bm2 pageID true
      (res, bm3)

/-- Insert: runs the recursive insert from the root; a nonzero returned
child id means the root split, so a new internal root with one separator
and two children is built (allocation error again discarded, nil
dereference on failure) and the handle's root id updated. -/
def Insert (fuel : Nat) (bt : BTree) (bm : BufferManager) (key value : Nat) :
    Except Err Unit × BTree × BufferManager :=
  match insert fuel bm bt.rootPageID key value with
  | (.error e, bm1) => (.error e, bt, bm1)
  | (.ok (splitKey, newChild), bm1) =>
    if newChild ≠ 0 then
      match NewPage bm1 with
      | (.error _, bm2) => (.error .Panic, bt, bm2)
      | (.ok (newRootID, rootIdx), bm2) =>
        let bm3 := modData bm2 rootIdx fun p =>
          putU64 (putU64 (putU64 (putU64 (initializeInternalPage p)
            internalHeaderSize (Sizzle bt.rootPageID))
            (internalHeaderSize + ptrSize) splitKey)
            (internalHeaderSize + ptrSize + keySize) (Sizzle newChild))
            8 1
        (.ok (), { rootPageID := newRootID }, bm3)
    else (.ok (), bt, bm1)

/-- Resolves a page id to its resident page contents through the page
table (observation helper for stating properties; every page of the runs
below stays resident). -/
def pageOf (bm : BufferManager) (pageID : PageID) : Page :=
  match bm.pageTable pageID with
  | some idx => (bm.frames idx).data
  | none => Page.zeros

/-- Keys stored in a leaf page, in slot order (observation helper). -/
def leafKeys (p : Page) : List Nat :=
  (List.range (getU64 p 8)).map fun m =>
    getU64 p (leafHeaderSize + m * (keySize + valueSize))

/-- Leaf-chain scan (observation helper): collects the keys of the leaf,
then follows the next-leaf pointer until it is 0, with a fuel bound since
nothing guarantees the chain is acyclic. -/
def chainScanKeys (fuel : Nat) (bm : BufferManager) (pageID : PageID) : List Nat :=
  match fuel with
  | 0 => []
  | fuel + 1 =>
    let p := pageOf bm pageID
    leafKeys p ++
      (let next := getU64 p 16
       if next = 0 then [] else chainScanKeys fuel bm next)

end btree

/-!  The simpler buffer manager, the `package manager` variant that keys
frames by page id, keeps a free list instead of a clock, and evicts only
in NewPage.  No code iterates its Go maps — only lookup, assignment,
deletion and `len(bm.frames)` occur — so a map is modelled as its lookup
function, with the frame map's size (`len`) carried alongside and kept in
step by assignment and deletion.  Disk entries are stored by value: the
source stores slice headers, which are not mutated after the frame is
deleted in any execution modelled here.  A pinned page's buffer is
returned to the caller as the page id, and reads and writes through it
act on the resident frame's data. -/

namespace manager1

open manager

/-- Buffer frame of this variant (`type bufferPage struct`): page id, data
slice, dirty flag and pin count (a Go `int`, free to go negative). -/
structure bufferPage where
  pageID : PageID
  data : Page
  isDirty : Bool
  pinCount : Int

/-- Manager state (`type BufferManager struct`): disk map, frame map with
its tracked size, free list and the next page id. -/
structure BufferManager where
  disk : PageID → Option Page
  frames : PageID → Option bufferPage
  framesLen : Nat
  freeList : List PageID
  nextPageID : PageID

/-- NewBufferManager: empty maps and free list. -/
def NewBufferManager : BufferManager :=
  { disk := fun _ => none, frames := fun _ => none, framesLen := 0,
    freeList := [], nextPageID := 0 }

/-- Go map assignment `bm.frames[pageID] = ...` (the size grows only when
the key was absent). -/
def setFrameEntry (bm : BufferManager) (p : PageID) (f : bufferPage) : BufferManager :=
  { bm with
    frames := fun q => if q = p then some f else bm.frames q
    framesLen := if (bm.frames p).isSome then bm.framesLen else bm.framesLen + 1 }

/-- Go map deletion `delete(bm.frames, pageID)` (the size shrinks only
when the key was present). -/
def eraseFrame (bm : BufferManager) (p : PageID) : BufferManager :=
  { bm with
    frames := fun q => if q = p then none else bm.frames q
    framesLen := if (bm.frames p).isSome then bm.framesLen - 1 else bm.framesLen }

/-- PinPage: a resident page's pin count is incremented and its buffer
returned.  Otherwise the disk map is consulted, and — when the page is on
neither — `data = make([]byte, PageSize)` fabricates a zeroed page; either
way a frame with pin count 1 is installed and the buffer returned.  This
variant never fails and never evicts.  The returned buffer is modelled as
the page id. -/
def PinPage (bm : BufferManager) (pageID : PageID) :
    Except Err PageID × BufferManager :=
  match bm.frames pageID with
  | some page =>
      (.ok pageID, setFrameEntry bm pageID { page with pinCount := page.pinCount + 1 })
  | none =>
      let data := match bm.disk pageID with
        | some d => d
        | none => Page.zeros
      (.ok pageID, setFrameEntry bm pageID
        { pageID := pageID, data := data, isDirty := false, pinCount := 1 })

/-- UnpinPage: fails ("page not found") for a nonresident page; otherwise
decrements the pin count without any lower bound, ORs the dirty flag, and
appends the page to the free list exactly when the count reaches 0. -/
def UnpinPage (bm : BufferManager) (pageID : PageID) (isDirty : Bool) :
    Except Err Unit × BufferManager :=
  match bm.frames pageID with
  | none => (.error .NotFound, bm)
  | some page =>
      let page1 := { page with pinCount := page.pinCount - 1, isDirty := page.isDirty || isDirty }
      let bm1 := setFrameEntry bm pageID page1
      if page1.pinCount = 0 then
        (.ok (), { bm1 with freeList := bm1.freeList ++ [pageID] })
      else (.ok (), bm1)

/-- FlushPage: fails ("page not in buffer") for a nonresident page;
otherwise writes the frame's bytes to the disk map and clears dirty. -/
def FlushPage (bm : BufferManager) (pageID : PageID) :
    Except Err Unit × BufferManager :=
  match bm.frames pageID with
  | none => (.error .NotFound, bm)
  | some page =>
      (.ok (), setFrameEntry
        { bm with disk := fun p => if p = pageID then some page.data else bm.disk p }
        pageID { page with isDirty := false })

/-- NewPage: allocates the next id; when the frame map has reached
MaxFrames entries an eviction is required — an empty free list fails with
"buffer pool full", otherwise the free list's head is popped and, if still
resident, written back when dirty and deleted.  A zeroed frame with pin
count 1 and dirty flag set is then installed and its buffer (the page id)
returned. -/
def NewPage (bm : BufferManager) : Except Err PageID × BufferManager :=
  let pageID := bm.nextPageID
  let bm0 := { bm with nextPageID := bm.nextPageID + 1 }
  let evicted : Except Err Unit × BufferManager :=
    if MaxFrames ≤ bm0.framesLen then
      match bm0.freeList with
      | [] => (.error .PoolExhausted, bm0)
      | evictID :: rest =>
        let bm1 := { bm0 with freeList := rest }
        match bm1.frames evictID with
        | some page =>
            let bm2 :=
              if page.isDirty then
                { bm1 with disk := fun p =>
                    if p = evictID then some page.data else bm1.disk p }
              else bm1
            (.ok (), eraseFrame bm2 evictID)
        | none => (.ok (), bm1)
    else (.ok (), bm0)
  match evicted with
  | (.error e, bmE) => (.error e, bmE)
  | (.ok (), bm3) =>
      (.ok pageID, setFrameEntry bm3 pageID
        { pageID := pageID, data := Page.zeros, isDirty := true, pinCount := 1 })

/-- Reads the uint64 at byte offset `off` through a held page buffer
(0 for a nonresident page; never reached nonresident in the modelled
runs). -/
def readFrameU64 (bm : BufferManager) (pageID : PageID) (off : Nat) : Nat :=
  match bm.frames pageID with
  | some page => getU64 page.data off
  | none => 0

/-- Applies a page transformation through a held page buffer (a write
through a slice whose frame was deleted would not be visible; no modelled
run writes to an evicted frame). -/
def modFrame (bm : BufferManager) (pageID : PageID) (f : Page → Page) : BufferManager :=
  match bm.frames pageID with
  | some page => setFrameEntry bm pageID { page with data := f page.data }
  | none => bm

/-- Writes the uint64 `v` at byte offset `off` through a held page buffer. -/
def writeFrameU64 (bm : BufferManager) (pageID : PageID) (off v : Nat) : BufferManager :=
  modFrame bm pageID fun p => putU64 p off v

end manager1

/-!  The bulk loader (`package loader`), over the manager variant defined
in the same source file.  File input is outside the model: the decoded
record list is the loader's input (the on-disk form is a flat sequence of
16-byte big-endian records, one record per list element).  `sort.Slice`
with `entries[i].key < entries[j].key` is an unstable sort; it is modelled
by insertion sort on the same key order, which agrees with it on inputs
whose keys are pairwise distinct (duplicate-key order is
implementation-defined in the source). -/

namespace loader

open manager manager1

/-- Loader record (`type entry struct { key, value uint64 }`). -/
structure entry where
  key : Nat
  value : Nat
deriving DecidableEq

/-- keySize = 8 (loader package constant). -/
def keySize : Nat := 8

/-- valueSize = 8 (loader package constant). -/
def valueSize : Nat := 8

/-- entriesPerLeaf = (PageSize - leafHeaderSize) / (keySize + valueSize)
= 254, computed inside createLeafNodes. -/
def entriesPerLeaf : Nat := (PageSize - btree.leafHeaderSize) / (keySize + valueSize)

/-- pointersPerNode = (PageSize - internalHeaderSize) / (keySize + ptrSize)
= 255, computed inside buildTreeFromLeaves. -/
def pointersPerNode : Nat := (PageSize - btree.internalHeaderSize) / (keySize + btree.ptrSize)

/-- Sorting step of readAndSortEntries (see the namespace comment on the
choice of insertion sort for `sort.Slice`). -/
def sortEntries (entries : List entry) : List entry :=
  List.insertionSort (fun a b => a.key ≤ b.key) entries

/-- Loop of createLeafNodes over `for i, e := range entries`: whenever the
running index is a multiple of entriesPerLeaf, the previous leaf (if any)
is finalized with a full entry count, a new leaf page is allocated
(allocation failure aborts the whole call with the error), recorded in
the leaf list and formatted; the entry is then written at its offset
through the current leaf's buffer. -/
def createLeafNodesLoop (bm : BufferManager) (leaves : List PageID)
    (currentLeafID : Option PageID) (i : Nat) :
    List entry → Except Err (List PageID × Option PageID) × BufferManager
  | [] => (.ok (leaves, currentLeafID), bm)
  | e :: rest =>
    if i % entriesPerLeaf = 0 then
      let bmF := match currentLeafID with
        | some cl => writeFrameU64 bm cl 8 entriesPerLeaf
        | none => bm
      match NewPage bmF with
      | (.error err, bmE) => (.error err, bmE)
      | (.ok newID, bm1) =>
        let bm2 := modFrame bm1 newID btree.initializeLeafPage
        let offset := btree.leafHeaderSize + (i % entriesPerLeaf) * (keySize + valueSize)
        let bm3 := writeFrameU64 (writeFrameU64 bm2 newID offset e.key)
          newID (offset + keySize) e.value
        createLeafNodesLoop bm3 (leaves ++ [newID]) (some newID) (i + 1) rest
    else
      match currentLeafID with
      | some cl =>
        let offset := btree.leafHeaderSize + (i % entriesPerLeaf) * (keySize + valueSize)
        let bm3 := writeFrameU64 (writeFrameU64 bm cl offset e.key)
          cl (offset + keySize) e.value
        createLeafNodesLoop bm3 leaves (some cl) (i + 1) rest
      | none => (.error .Panic, bm)

/-- createLeafNodes: runs the packing loop from an empty leaf list, then
finalizes the last leaf with `len(entries) % entriesPerLeaf` entries
(entriesPerLeaf when that remainder is 0); an empty input produces no
leaves.  The `none` fall-through of the loop models the nil dereference
the source would make if an entry were written with no current leaf; it
is unreachable because the loop allocates a leaf at index 0. -/
def createLeafNodes (bm : BufferManager) (entries : List entry) :
    Except Err (List PageID) × BufferManager :=
  match createLeafNodesLoop bm [] none 0 entries with
  | (.error e, bm1) => (.error e, bm1)
  | (.ok (leaves, currentLeafID), bm1) =>
    match currentLeafID with
    | none => (.ok leaves, bm1)
    | some cl =>
      let finalCount :=
        if entries.length % entriesPerLeaf = 0 then entriesPerLeaf
        else entries.length % entriesPerLeaf
      (.ok leaves, writeFrameU64 bm1 cl 8 finalCount)

/-- Inner loop of buildTreeFromLeaves for the children after the first of
one group: each child is pinned (the source drops the error; this
variant's PinPage always succeeds), its "first key" read at byte offset
btree.leafHeaderSize = 32 regardless of the child's node type, the child
unpinned, and the (key, pointer) pair appended to the node under
construction. -/
def buildGroupLoop (bm : BufferManager) (nodeID : PageID) (numKeys : Nat) :
    List PageID → Except Err Nat × BufferManager
  | [] => (.ok numKeys, bm)
  | child :: rest =>
    match PinPage bm child with
    | (.error _, bmE) => (.error .Panic, bmE)
    | (.ok h, bm1) =>
      let firstKey := readFrameU64 bm1 h btree.leafHeaderSize
      let (_, bm2) := UnpinPage bm1 child false
      let offset := btree.internalHeaderSize + numKeys * (btree.ptrSize + keySize)
        + btree.ptrSize
      let bm3 := writeFrameU64 bm2 nodeID offset firstKey
      let bm4 := writeFrameU64 bm3 nodeID (offset + keySize) (Sizzle child)
      buildGroupLoop bm4 nodeID (numKeys + 1) rest

/-- One level of buildTreeFromLeaves: `for i := 0; i < len(leaves);
i += pointersPerNode` groups `leaves[i:end]`; for each group an internal
page is allocated (`panic(err)` on failure, modelled as `Err.Panic`),
formatted, given the group's first id as first pointer, filled by
`buildGroupLoop`, and its key count finalized.  The groups are consumed
by take/drop chunking; the structural recursion argument `gas` (at least
the remaining list's length, which strictly decreases) stands for the
index bound of the source's loop. -/
def buildLevelLoop (bm : BufferManager) : (gas : Nat) → List PageID →
    Except Err (List PageID) × BufferManager
  | _, [] => (.ok [], bm)
  | 0, _ :: _ => (.ok [], bm)
  | gas + 1, l :: rest =>
    match NewPage bm with
    | (.error _, bm1) => (.error .Panic, bm1)
    | (.ok pid, bm1) =>
      let bm2 := modFrame bm1 pid btree.initializeInternalPage
      let bm3 := writeFrameU64 bm2 pid btree.internalHeaderSize (Sizzle l)
      match buildGroupLoop bm3 pid 0 (rest.take (pointersPerNode - 1)) with
      | (.error e, bm4) => (.error e, bm4)
      | (.ok numKeys, bm4) =>
        let bm5 := writeFrameU64 bm4 pid 8 numKeys
        match buildLevelLoop bm5 gas (rest.drop (pointersPerNode - 1)) with
        | (.error e, bm6) => (.error e, bm6)
        | (.ok parents, bm6) => (.ok (pid :: parents), bm6)

/-- buildTreeFromLeaves: a single page is returned as the root; otherwise
one internal level is built over the current list and the construction
recurses on the new level.  The source recursion has no termination
measure (and indeed never returns on an empty list); it is bounded here by
fuel, `none` meaning the recursion is still running when the fuel is
spent. -/
def buildTreeFromLeaves : (fuel : Nat) → BufferManager → List PageID →
    Option (Except Err PageID × BufferManager)
  | 0, _, _ => none
  | fuel + 1, bm, leaves =>
    match leaves with
    | [l] => some (.ok l, bm)
    | _ =>
      match buildLevelLoop bm leaves.length leaves with
      | (.error e, bm1) => some (.error e, bm1)
      | (.ok parents, bm1) => buildTreeFromLeaves fuel bm1 parents

/-- createBulkLoadedTree: leaf packing followed by the bottom-up level
construction; the resulting page is the tree's root. -/
def createBulkLoadedTree (fuel : Nat) (bm : BufferManager) (entries : List entry) :
    Option (Except Err btree.BTree × BufferManager) :=
  match createLeafNodes bm entries with
  | (.error e, bm1) => some (.error e, bm1)
  | (.ok leaves, bm1) =>
    match buildTreeFromLeaves fuel bm1 leaves with
    | none => none
    | some (.error e, bm2) => some (.error e, bm2)
    | some (.ok rootID, bm2) => some (.ok { rootPageID := rootID }, bm2)

/-- LoadDataFile of the bulk loader: sort the decoded records, then bulk
load them. -/
def LoadDataFile (fuel : Nat) (bm : BufferManager) (records : List entry) :
    Option (Except Err btree.BTree × BufferManager) :=
  createBulkLoadedTree fuel bm (sortEntries records)

/-- Entries of a bulk-loaded leaf in slot order (observation helper). -/
def leafEntriesOf (bm : BufferManager) (pageID : PageID) : List (Nat × Nat) :=
  (List.range (readFrameU64 bm pageID 8)).map fun m =>
    (readFrameU64 bm pageID (btree.leafHeaderSize + m * (keySize + valueSize)),
     readFrameU64 bm pageID (btree.leafHeaderSize + m * (keySize + valueSize) + keySize))

/-- Leaf-chain scan for this manager variant (observation helper):
collects entries of the leaf, then follows the next-leaf pointer until it
is 0, bounded by fuel. -/
def scanChain (bm : BufferManager) : (fuel : Nat) → PageID → List (Nat × Nat)
  | 0, _ => []
  | fuel + 1, pageID =>
    leafEntriesOf bm pageID ++
      (let next := readFrameU64 bm pageID 16
       if next = 0 then [] else scanChain bm fuel next)

end loader

/-!  Concrete states used to settle the claims.  The `state...`
definitions below transcribe, slot for slot, buffer-manager states that
the public operations produce; each doc comment names the generating call
sequence.  -/

namespace exhibits

open manager manager0 btree

/-- Frame as a session leaves it: holding page `pid`, pinned once (the
allocating NewPage's pin is never released by the tree code), dirty and
referenced. -/
def sessionFrame (pid : Nat) (d : Page) : bufferPage :=
  { pageID := pid, data := d, isDirty := true, pinCount := 1, refbit := true }

/-- Untouched frame (the state NewBufferManager gives every frame). -/
def idleFrame : bufferPage :=
  { pageID := 0, data := Page.zeros, isDirty := false, pinCount := 0, refbit := false }

/-- Leaf page with `count` live entries, whose entry area carries the
ascending pattern (first + m, 5000 + first + m) for m < patternLen —
slots past the live count are the stale bytes a split leaves behind —
and the given next and previous leaf pointers. -/
def ascLeafData (first count patternLen nxt prv : Nat) : Page := fun w =>
  if w = 0 then 0
  else if w = 1 then count
  else if w = 2 then nxt
  else if w = 3 then prv
  else if w < 4 + 2 * patternLen then
    (if (w - 4) % 2 = 0 then first + (w - 4) / 2 else 5000 + first + (w - 4) / 2)
  else 0

/-- Internal page with a single separator key `k` between children `c0`
and `c1`. -/
def oneKeyRootData (c0 k c1 : Nat) : Page := fun w =>
  if w = 0 then 1
  else if w = 1 then 1
  else if w = 2 then c0
  else if w = 3 then k
  else if w = 4 then c1
  else 0

/-- Manager state after NewBTree on a fresh clock manager followed by
Insert of (k, 5000 + k) for k = 1, 2, ..., 381 in ascending order: the
root (page 2, an internal node separating at 128) over leaf 0 (keys
1..127 live, stale tail to 254) and leaf 1 (keys 128..381, full at 254
entries); pages 0, 1, 2 sit pinned and dirty in frames 0, 1, 2. -/
def stateA : BufferManager :=
  { disk := fun _ => none
    frames := fun j =>
      if j = 0 then sessionFrame 0 (ascLeafData 1 127 254 1 0)
      else if j = 1 then sessionFrame 1 (ascLeafData 128 254 254 0 0)
      else if j = 2 then sessionFrame 2 (oneKeyRootData 0 128 1)
      else idleFrame
    pageTable := fun p => if p < 3 then some p else none
    clockHand := 3
    nextPageID := 3 }

/-- Tree handle that goes with stateA (and stateB): root page 2. -/
def treeA : BTree := { rootPageID := 2 }

/-- Insert of key 382 into stateA — the step whose promotion into the
root goes through insertInternalEntry. -/
def stepA : Except Err Unit × BTree × BufferManager :=
  Insert 10 treeA stateA 382 5382

/-- Manager state after NewBTree on a fresh clock manager followed by
Insert of (k, 5000 + k) for k = 382, 381, ..., 2 in descending order:
the root (page 2, separating at 256) over leaf 0 (keys 2..255, full) and
leaf 1 (keys 256..382, 127 entries); the leaf chain runs 0 -> 1. -/
def stateB : BufferManager :=
  { disk := fun _ => none
    frames := fun j =>
      if j = 0 then sessionFrame 0 (ascLeafData 2 254 254 1 0)
      else if j = 1 then sessionFrame 1 (ascLeafData 256 127 127 0 0)
      else if j = 2 then sessionFrame 2 (oneKeyRootData 0 256 1)
      else idleFrame
    pageTable := fun p => if p < 3 then some p else none
    clockHand := 3
    nextPageID := 3 }

/-- Insert of key 1 into stateB — the step that splits a leaf whose next
pointer is live. -/
def stepB : Except Err Unit × BTree × BufferManager :=
  Insert 10 treeA stateB 1 5001

/-- Manager state after NewBTree on a fresh clock manager, Insert of
(k, 5000 + k) for k = 1 .. 254 (filling the root leaf exactly), and 99
further NewPage calls (pages 1..99) that are kept pinned: every frame of
the pool is pinned, so the next allocation cannot find a victim. -/
def stateC : BufferManager :=
  { disk := fun _ => none
    frames := fun j =>
      if j = 0 then sessionFrame 0 (ascLeafData 1 254 254 0 0)
      else if j < 100 then sessionFrame j Page.zeros
      else idleFrame
    pageTable := fun p => if p < 100 then some p else none
    clockHand := 0
    nextPageID := 100 }

/-- Tree handle that goes with stateC: the root is still leaf page 0. -/
def treeC : BTree := { rootPageID := 0 }

/-- Insert of key 255 into stateC — the step that needs a split but finds
the pool exhausted. -/
def stepC : Except Err Unit × BTree × BufferManager :=
  Insert 10 treeC stateC 255 5255

/-- Clock manager after 100 NewPage calls: pages 0..99 fill frames 0..99,
all pinned and dirty. -/
def c8Fill : BufferManager :=
  (List.range MaxFrames).foldl (fun bm _ => (NewPage bm).2) NewBufferManager

/-- The caller writes the marker value 7 into page 0 through its pinned
buffer, then unpins it dirty: frame 0 becomes the only evictable frame. -/
def c8Unpinned : BufferManager :=
  (UnpinPage (modData c8Fill 0 fun p => putU64 p 0 7) 0 true).2

/-- One more NewPage: the clock selects frame 0, "writes back" the dirty
page 0 — storing a pointer into frame 0 — and then overwrites the frame
with the zeroed page 100. -/
def c8Final : BufferManager := (NewPage c8Unpinned).2

end exhibits

namespace exhibits1

open manager manager1 loader

/-- One-entry leaf page used as a bulk-loader child: key 1000000 + i,
value 2000000 + i. -/
def c6LeafData (i : Nat) : Page := fun w =>
  if w = 0 then 0
  else if w = 1 then 1
  else if w = 4 then 1000000 + i
  else if w = 5 then 2000000 + i
  else 0

/-- Resident, unpinned, dirty frame for the bulk-loader child `i`. -/
def c6Frame (i : Nat) : bufferPage :=
  { pageID := i, data := c6LeafData i, isDirty := true, pinCount := 0 }

/-- Explicit input state for the level construction: 257 one-entry leaf
pages (ids 0..256, first keys 1000000 + i) resident in the simple
manager, with three spare free-list slots so the three internal-node
allocations (pages 500, 501, 502) can evict; ids 9001..9003 are stale
free-list entries whose frames are gone, so popping them evicts
nothing. -/
def c6State : BufferManager :=
  { disk := fun _ => none
    frames := fun i => if i < 257 then some (c6Frame i) else none
    framesLen := 257
    freeList := [9001, 9002, 9003]
    nextPageID := 500 }

/-- The 257 leaf ids handed to buildTreeFromLeaves. -/
def c6Leaves : List PageID := List.range 257

/-- The level construction on the 257 leaves: one full internal node
(page 500) over leaves 0..254, one internal node (page 501) over leaves
255..256, and the root (page 502) over those two. -/
def c6Run : Option (Except Err PageID × BufferManager) :=
  buildTreeFromLeaves 5 c6State c6Leaves

/-- Final manager state of the level construction. -/
def c6FinalBM : BufferManager :=
  match c6Run with
  | some (_, bm) => bm
  | none => NewBufferManager

/-- 255 records with keys 1..255 (values key + 5000), already in
ascending order — one more record than a leaf holds, so the bulk loader
must produce two chained leaves. -/
def c5Records : List entry :=
  (List.range 255).map fun i => { key := i + 1, value := i + 5001 }

/-- Leaf packing of the 255 records on a fresh simple manager. -/
def c5Run : Except Err (List PageID) × BufferManager :=
  createLeafNodes NewBufferManager (sortEntries c5Records)

/-- The spec's own bulk-load scenario: records (5,50), (1,10), (3,30),
unsorted. -/
def c5ScenarioRecords : List entry := [⟨5, 50⟩, ⟨1, 10⟩, ⟨3, 30⟩]

/-- Leaf packing of the scenario records on a fresh simple manager. -/
def c5ScenarioRun : Except Err (List PageID) × BufferManager :=
  createLeafNodes NewBufferManager (sortEntries c5ScenarioRecords)

end exhibits1

namespace exhibits1

open manager manager1

/-- Simple-manager state with a full frame table (100 clean, unpinned
resident pages 0..99) and page 55 on the free list: the next NewPage must
evict it. -/
def c8w : BufferManager :=
  { disk := fun _ => none
    frames := fun i =>
      if i < 100 then
        some { pageID := i, data := Page.zeros, isDirty := false, pinCount := 0 }
      else none
    framesLen := 100
    freeList := [55]
    nextPageID := 100 }

end exhibits1


/-!  Helper lemmas for the claims below.  -/

/-- Every successful probe of the clock sweep returns a frame whose pin
count was not positive: pinned frames are skipped unconditionally. -/
theorem findVictimLoop_ok_unpinned :
    ∀ (rem : Nat) (bm : manager0.BufferManager) (i idx : Nat),
      (manager0.findVictimLoop bm i rem).1 = Except.ok idx →
      (bm.frames idx).pinCount ≤ 0 := by
  intro rem
  induction rem with
  | zero => intro bm i idx h; simp [manager0.findVictimLoop] at h
  | succ n ih =>
    intro bm i idx h
    rw [manager0.findVictimLoop] at h
    by_cases hp : (bm.frames ((bm.clockHand + i) % manager.MaxFrames)).pinCount > 0
    · simp only [hp, if_pos] at h
      exact ih bm (i + 1) idx h
    · simp only [hp, if_neg, if_false] at h
      by_cases hr : (bm.frames ((bm.clockHand + i) % manager.MaxFrames)).refbit
      · simp only [hr, if_pos] at h
        have := ih _ (i + 1) idx h
        simp only [manager0.setFrame] at this
        by_cases he : idx = (bm.clockHand + i) % manager.MaxFrames
        · subst he; simpa using this
        · simpa [he] using this
      · simp only [hr, if_neg, if_false] at h
        have : (bm.clockHand + i) % manager.MaxFrames = idx := by
          simpa using h
        rw [← this]
        omega

/-- Level construction of the bulk loader: a successful pass over a level
produces one parent per started group of pointersPerNode children. -/
theorem buildLevelLoop_ok_length :
    ∀ (gas : Nat) (rem : List manager.PageID) (bm : manager1.BufferManager)
      (ps : List manager.PageID) (bm' : manager1.BufferManager),
      rem.length ≤ gas →
      loader.buildLevelLoop bm gas rem = (Except.ok ps, bm') →
      ps.length = (rem.length + 254) / 255 := by
  intro gas
  induction gas with
  | zero =>
    intro rem bm ps bm' hlen h
    cases rem with
    | nil => simp [loader.buildLevelLoop] at h; simp [h.1]
    | cons l rest => simp at hlen
  | succ g ih =>
    intro rem bm ps bm' hlen h
    cases rem with
    | nil => simp [loader.buildLevelLoop] at h; simp [h.1]
    | cons l rest =>
      rw [loader.buildLevelLoop] at h
      rcases hnp : manager1.NewPage bm with ⟨rnp, bm1⟩
      rw [hnp] at h
      cases rnp with
      | error e => simp at h
      | ok pid =>
        simp only at h
        rcases hg : loader.buildGroupLoop
            (manager1.writeFrameU64 (manager1.modFrame bm1 pid btree.initializeInternalPage)
              pid btree.internalHeaderSize (manager.Sizzle l))
            pid 0 (rest.take (loader.pointersPerNode - 1)) with ⟨rg, bm4⟩
        rw [hg] at h
        cases rg with
        | error e => simp at h
        | ok numKeys =>
          simp only at h
          rcases hrec : loader.buildLevelLoop (manager1.writeFrameU64 bm4 pid 8 numKeys) g
              (rest.drop (loader.pointersPerNode - 1)) with ⟨rr, bm6⟩
          rw [hrec] at h
          cases rr with
          | error e => simp at h
          | ok parents =>
            simp only [Prod.mk.injEq, Except.ok.injEq] at h
            have hdl : (rest.drop (loader.pointersPerNode - 1)).length ≤ g := by
              simp [List.length_drop]
              simp at hlen
              omega
            have := ih (rest.drop (loader.pointersPerNode - 1)) _ parents bm6 hdl hrec
            have hpp : loader.pointersPerNode = 255 := rfl
            rw [← h.1]
            simp [List.length_drop, hpp] at this ⊢
            omega

/-- Bulk-loader recursion applied to the empty list: every level maps the
empty list to an empty parent list, so no amount of fuel reaches a
result. -/
theorem buildTreeFromLeaves_nil_none :
    ∀ (fuel : Nat) (bm : manager1.BufferManager),
      loader.buildTreeFromLeaves fuel bm [] = none := by
  intro fuel
  induction fuel with
  | zero => intro bm; rfl
  | succ n ih => intro bm; exact ih bm

/-- Bulk-loader recursion terminates once the fuel covers the level count:
each level built over at least two pages yields strictly fewer parents. -/
theorem buildTreeFromLeaves_terminates :
    ∀ (fuel : Nat) (leaves : List manager.PageID) (bm : manager1.BufferManager),
      leaves ≠ [] → leaves.length ≤ fuel →
      (loader.buildTreeFromLeaves fuel bm leaves).isSome = true := by
  intro fuel
  induction fuel with
  | zero =>
    intro leaves bm hne hlen
    cases leaves with
    | nil => exact absurd rfl hne
    | cons l rest => simp at hlen
  | succ n ih =>
    intro leaves bm hne hlen
    cases leaves with
    | nil => exact absurd rfl hne
    | cons l rest =>
      cases rest with
      | nil => rfl
      | cons l2 rest2 =>
        show (match loader.buildLevelLoop bm (l :: l2 :: rest2).length (l :: l2 :: rest2) with
          | (Except.error e, bm1) => some (Except.error e, bm1)
          | (Except.ok parents, bm1) => loader.buildTreeFromLeaves n bm1 parents).isSome = true
        rcases hlvl : loader.buildLevelLoop bm (l :: l2 :: rest2).length (l :: l2 :: rest2)
          with ⟨rl, bm1⟩
        cases rl with
        | error e => simp
        | ok parents =>
          simp only [Option.isSome_some]
          have hplen : parents.length = ((l :: l2 :: rest2).length + 254) / 255 :=
            buildLevelLoop_ok_length _ _ _ _ _ (Nat.le_refl _) hlvl
          have hb : (l :: l2 :: rest2).length = rest2.length + 2 := by simp
          have hne2 : parents ≠ [] := by
            intro hnil
            rw [hnil] at hplen
            rw [hb] at hplen
            simp at hplen
            omega
          have hlt : parents.length ≤ n := by
            rw [hb] at hplen
            simp at hlen
            omega
          exact ih parents bm1 hne2 hlt


/-!  Helper lemmas for the bulk-loading claims: word-level read/write
reasoning over the simple manager, pointer-slot preservation through the
leaf-packing loop, and the group loop of the level construction.  -/

section bulkLoadHelpers

open manager manager1 loader

theorem getU64_putU64 (p : Page) (off v off' : Nat) :
    getU64 (putU64 p off v) off' =
      if off' / 8 = off / 8 then v % 2 ^ 64 else getU64 p off' := by
  simp [getU64, putU64]

theorem frames_setFrameEntry (bm : BufferManager) (p : PageID) (f : bufferPage) (q : PageID) :
    (setFrameEntry bm p f).frames q = if q = p then some f else bm.frames q := rfl

theorem readFrame_writeFrame_ne (bm : BufferManager) (p : PageID) (off v : Nat)
    (q : PageID) (off' : Nat) (h : off' / 8 ≠ off / 8) :
    readFrameU64 (writeFrameU64 bm p off v) q off' = readFrameU64 bm q off' := by
  unfold writeFrameU64 modFrame
  cases hf : bm.frames p with
  | none => rfl
  | some page =>
    unfold readFrameU64
    rw [frames_setFrameEntry]
    by_cases hq : q = p
    · subst hq
      rw [hf]
      simp [getU64_putU64, h]
    · simp [hq]

theorem readFrame_initLeaf (bm : BufferManager) (p q : PageID) (off : Nat)
    (hoff : off / 8 = 2 ∨ off / 8 = 3) :
    readFrameU64 (modFrame bm p btree.initializeLeafPage) q off =
      if q = p ∧ (bm.frames p).isSome then 0 else readFrameU64 bm q off := by
  unfold modFrame
  cases hf : bm.frames p with
  | none => simp [hf]
  | some page =>
    unfold readFrameU64
    rw [frames_setFrameEntry]
    by_cases hq : q = p
    · subst hq
      simp [hf, btree.initializeLeafPage, getU64_putU64]
      rcases hoff with h | h <;> simp [h, btree.leafNode, getU64, putU64]
    · simp [hq, hf]

theorem NewPage_preserves_zero (bm : BufferManager) (q : PageID) (off : Nat)
    (hz : readFrameU64 bm q off = 0)
    (r : Except Err PageID) (bm' : BufferManager) (h : NewPage bm = (r, bm')) :
    readFrameU64 bm' q off = 0 := by
  unfold NewPage at h
  simp only at h
  by_cases hlen : MaxFrames ≤ bm.framesLen
  · rw [if_pos hlen] at h
    cases hfl : bm.freeList with
    | nil =>
      rw [hfl] at h
      simp only at h
      cases h; assumption
    | cons evictID rest =>
      rw [hfl] at h
      simp only at h
      cases hfr : bm.frames evictID with
      | none =>
        rw [hfr] at h
        simp only at h
        cases h
        unfold readFrameU64 at hz ⊢
        rw [frames_setFrameEntry]
        by_cases hq : q = bm.nextPageID
        · simp [hq, getU64, Page.zeros]
        · simpa [hq] using hz
      | some page =>
        rw [hfr] at h
        simp only at h
        cases h
        unfold readFrameU64 at hz ⊢
        rw [frames_setFrameEntry]
        by_cases hq : q = bm.nextPageID
        · simp [hq, getU64, Page.zeros]
        · simp only [hq, if_neg, if_false]
          unfold eraseFrame
          simp only
          by_cases he : q = evictID
          · simp [he]
          · by_cases hd : page.isDirty <;> simp [hd, he] <;> simpa using hz
  · rw [if_neg hlen] at h
    simp only at h
    cases h
    unfold readFrameU64 at hz ⊢
    rw [frames_setFrameEntry]
    by_cases hq : q = bm.nextPageID
    · simp [hq, getU64, Page.zeros]
    · simpa [hq] using hz

theorem readFrame_none (bm : BufferManager) (q : PageID) (off : Nat)
    (h : bm.frames q = none) : readFrameU64 bm q off = 0 := by
  unfold readFrameU64
  rw [h]

theorem loop_stepA_cont
    (rest : List entry)
    (ih : ∀ (bm : BufferManager) (leaves : List PageID) (cur : Option PageID) (i off : Nat),
      off / 8 = 2 ∨ off / 8 = 3 →
      (∀ l ∈ leaves, readFrameU64 bm l off = 0) →
      (∀ cl, cur = some cl → readFrameU64 bm cl off = 0) →
      ∀ res bm', createLeafNodesLoop bm leaves cur i rest = (Except.ok res, bm') →
      ∀ l ∈ res.1, readFrameU64 bm' l off = 0)
    (e : entry) (bmF bm1 : BufferManager) (newID : PageID) (leaves : List PageID)
    (i off : Nat) (hoff : off / 8 = 2 ∨ off / 8 = 3)
    (hlF : ∀ l ∈ leaves, readFrameU64 bmF l off = 0)
    (hnp : NewPage bmF = (Except.ok newID, bm1))
    (res : List PageID × Option PageID) (bm' : BufferManager)
    (h : createLeafNodesLoop
          (writeFrameU64 (writeFrameU64 (modFrame bm1 newID btree.initializeLeafPage) newID
            (btree.leafHeaderSize + i % entriesPerLeaf * (keySize + valueSize)) e.key)
            newID (btree.leafHeaderSize + i % entriesPerLeaf * (keySize + valueSize) + keySize)
            e.value)
          (leaves ++ [newID]) (some newID) (i + 1) rest = (Except.ok res, bm')) :
    ∀ l ∈ res.1, readFrameU64 bm' l off = 0 := by
  intro l hmem
  have hl1 : ∀ l ∈ leaves, readFrameU64 bm1 l off = 0 := fun l hm =>
    NewPage_preserves_zero _ l off (hlF l hm) _ _ hnp
  have hnew : readFrameU64 (modFrame bm1 newID btree.initializeLeafPage) newID off = 0 := by
    rw [readFrame_initLeaf _ _ _ _ hoff]
    cases hf : (bm1.frames newID).isSome
    · simp only [hf]
      simp
      refine readFrame_none _ _ _ ?_
      cases hg : bm1.frames newID
      · rfl
      · rw [hg] at hf; simp at hf
    · simp [hf]
  have hl2 : ∀ l ∈ leaves,
      readFrameU64 (modFrame bm1 newID btree.initializeLeafPage) l off = 0 := by
    intro l hm
    by_cases hq : l = newID
    · subst hq; exact hnew
    · unfold modFrame
      cases hg : bm1.frames newID
      · exact hl1 l hm
      · unfold readFrameU64
        rw [frames_setFrameEntry]
        simp only [hq, if_neg, if_false]
        exact hl1 l hm
  have hw1 : off / 8 ≠ (btree.leafHeaderSize + i % entriesPerLeaf * (keySize + valueSize)) / 8 := by
    have : (btree.leafHeaderSize + i % entriesPerLeaf * (keySize + valueSize)) / 8
        = 4 + 2 * (i % entriesPerLeaf) := by
      simp [btree.leafHeaderSize, keySize, valueSize]
      omega
    omega
  have hw2 : off / 8 ≠ (btree.leafHeaderSize + i % entriesPerLeaf * (keySize + valueSize) + keySize) / 8 := by
    have : (btree.leafHeaderSize + i % entriesPerLeaf * (keySize + valueSize) + keySize) / 8
        = 5 + 2 * (i % entriesPerLeaf) := by
      simp [btree.leafHeaderSize, keySize, valueSize]
      omega
    omega
  refine ih _ (leaves ++ [newID]) (some newID) (i + 1) off hoff ?_ ?_ res bm' h l hmem
  · intro l2 hm2
    rw [readFrame_writeFrame_ne _ _ _ _ _ _ hw2, readFrame_writeFrame_ne _ _ _ _ _ _ hw1]
    rcases List.mem_append.mp hm2 with hm2 | hm2
    · exact hl2 l2 hm2
    · rw [List.mem_singleton.mp hm2]; exact hnew
  · intro cl hcl
    cases hcl
    rw [readFrame_writeFrame_ne _ _ _ _ _ _ hw2, readFrame_writeFrame_ne _ _ _ _ _ _ hw1]
    exact hnew

theorem loop_pointers_zero :
    ∀ (es : List entry) (bm : BufferManager) (leaves : List PageID)
      (cur : Option PageID) (i : Nat) (off : Nat),
      off / 8 = 2 ∨ off / 8 = 3 →
      (∀ l ∈ leaves, readFrameU64 bm l off = 0) →
      (∀ cl, cur = some cl → readFrameU64 bm cl off = 0) →
      ∀ res bm', createLeafNodesLoop bm leaves cur i es = (Except.ok res, bm') →
      ∀ l ∈ res.1, readFrameU64 bm' l off = 0 := by
  intro es
  induction es with
  | nil =>
    intro bm leaves cur i off hoff hl hc res bm' h l hmem
    simp only [createLeafNodesLoop] at h
    cases h
    exact hl l hmem
  | cons e rest ih =>
    intro bm leaves cur i off hoff hl hc res bm' h l hmem
    simp only [createLeafNodesLoop] at h
    by_cases hi : i % entriesPerLeaf = 0
    · rw [if_pos hi] at h
      have hoff8 : off / 8 ≠ 8 / 8 := by omega
      cases hcur : cur with
      | none =>
        rw [hcur] at h
        simp only at h
        rcases hnp : NewPage bm with ⟨rnp, bm1⟩
        rw [hnp] at h
        cases rnp with
        | error err => simp at h
        | ok newID =>
          simp only at h
          exact loop_stepA_cont rest ih e bm bm1 newID leaves i off hoff hl hnp res bm' h l hmem
      | some cl =>
        rw [hcur] at h
        simp only at h
        have hlF : ∀ l ∈ leaves, readFrameU64 (writeFrameU64 bm cl 8 entriesPerLeaf) l off = 0 := by
          intro l2 hm2
          rw [readFrame_writeFrame_ne _ _ _ _ _ _ hoff8]
          exact hl l2 hm2
        rcases hnp : NewPage (writeFrameU64 bm cl 8 entriesPerLeaf) with ⟨rnp, bm1⟩
        rw [hnp] at h
        cases rnp with
        | error err => simp at h
        | ok newID =>
          simp only at h
          exact loop_stepA_cont rest ih e _ bm1 newID leaves i off hoff hlF hnp res bm' h l hmem
    · rw [if_neg hi] at h
      cases hcur : cur with
      | none => rw [hcur] at h; simp at h
      | some cl =>
        rw [hcur] at h
        simp only at h
        have hw1 : off / 8 ≠ (btree.leafHeaderSize + i % entriesPerLeaf * (keySize + valueSize)) / 8 := by
          have : (btree.leafHeaderSize + i % entriesPerLeaf * (keySize + valueSize)) / 8
              = 4 + 2 * (i % entriesPerLeaf) := by
            simp [btree.leafHeaderSize, keySize, valueSize]
            omega
          omega
        have hw2 : off / 8 ≠ (btree.leafHeaderSize + i % entriesPerLeaf * (keySize + valueSize) + keySize) / 8 := by
          have : (btree.leafHeaderSize + i % entriesPerLeaf * (keySize + valueSize) + keySize) / 8
              = 5 + 2 * (i % entriesPerLeaf) := by
            simp [btree.leafHeaderSize, keySize, valueSize]
            omega
          omega
        refine ih _ leaves (some cl) (i + 1) off hoff ?_ ?_ res bm' h l hmem
        · intro l2 hm2
          rw [readFrame_writeFrame_ne _ _ _ _ _ _ hw2, readFrame_writeFrame_ne _ _ _ _ _ _ hw1]
          exact hl l2 hm2
        · intro cl2 hcl2
          cases hcl2
          rw [readFrame_writeFrame_ne _ _ _ _ _ _ hw2, readFrame_writeFrame_ne _ _ _ _ _ _ hw1]
          exact hc cl hcur

theorem createLeafNodes_pointers_zero :
    ∀ (entries : List entry) (bm : BufferManager) (leaves : List PageID)
      (bm' : BufferManager),
      createLeafNodes bm entries = (Except.ok leaves, bm') →
      ∀ l ∈ leaves, readFrameU64 bm' l 16 = 0 ∧ readFrameU64 bm' l 24 = 0 := by
  intro entries bm leaves bm' h l hmem
  unfold createLeafNodes at h
  rcases hloop : createLeafNodesLoop bm [] none 0 entries with ⟨rl, bm1⟩
  rw [hloop] at h
  cases rl with
  | error e => simp at h
  | ok pr =>
    rcases pr with ⟨lv, cur⟩
    simp only at h
    have h16 := loop_pointers_zero entries bm [] none 0 16 (by omega)
      (by intro x hx; simp at hx) (by intro x hx; simp at hx) (lv, cur) bm1 hloop
    have h24 := loop_pointers_zero entries bm [] none 0 24 (by omega)
      (by intro x hx; simp at hx) (by intro x hx; simp at hx) (lv, cur) bm1 hloop
    cases cur with
    | none =>
      simp only at h
      cases h
      exact ⟨h16 l hmem, h24 l hmem⟩
    | some cl =>
      simp only at h
      cases h
      constructor
      · rw [readFrame_writeFrame_ne _ _ _ _ _ _ (by omega : (16 : Nat) / 8 ≠ 8 / 8)]
        exact h16 l hmem
      · rw [readFrame_writeFrame_ne _ _ _ _ _ _ (by omega : (24 : Nat) / 8 ≠ 8 / 8)]
        exact h24 l hmem

theorem frames_data_UnpinPage (bm : BufferManager) (p : PageID) (d : Bool) (q : PageID) :
    (((UnpinPage bm p d).2).frames q).map (fun f => f.data)
      = (bm.frames q).map (fun f => f.data) := by
  unfold UnpinPage
  cases hf : bm.frames p with
  | none => rfl
  | some page =>
    simp only
    by_cases hz : page.pinCount - 1 = 0
    · rw [if_pos hz]
      simp only [frames_setFrameEntry]
      by_cases hq : q = p <;> simp [hq, hf]
    · rw [if_neg hz]
      simp only [frames_setFrameEntry]
      by_cases hq : q = p <;> simp [hq, hf]

theorem frames_data_PinPage_resident (bm : BufferManager) (p : PageID)
    (hf : (bm.frames p).isSome) (q : PageID) :
    (((PinPage bm p).2).frames q).map (fun f => f.data)
      = (bm.frames q).map (fun f => f.data) := by
  unfold PinPage
  cases hg : bm.frames p with
  | none => rw [hg] at hf; simp at hf
  | some page =>
    simp only [frames_setFrameEntry]
    by_cases hq : q = p <;> simp [hq, hg]

theorem frames_data_writeFrame_ne (bm : BufferManager) (p : PageID) (off v : Nat)
    (q : PageID) (hq : q ≠ p) :
    ((writeFrameU64 bm p off v).frames q).map (fun f => f.data)
      = (bm.frames q).map (fun f => f.data) := by
  unfold writeFrameU64 modFrame
  cases hf : bm.frames p with
  | none => rfl
  | some page =>
    rw [frames_setFrameEntry]
    simp [hq]

theorem readFrame_congr (bm bm2 : BufferManager) (q : PageID) (off : Nat)
    (h : (bm.frames q).map (fun f => f.data) = (bm2.frames q).map (fun f => f.data)) :
    readFrameU64 bm q off = readFrameU64 bm2 q off := by
  unfold readFrameU64
  cases h1 : bm.frames q with
  | none =>
    rw [h1] at h
    cases h2 : bm2.frames q with
    | none => rfl
    | some f2 => rw [h2] at h; simp at h
  | some f1 =>
    rw [h1] at h
    cases h2 : bm2.frames q with
    | none => rw [h2] at h; simp at h
    | some f2 =>
      rw [h2] at h
      simp at h
      simp [h]

theorem readFrame_writeFrame_same (bm : BufferManager) (p : PageID) (off v : Nat)
    (hf : (bm.frames p).isSome) :
    readFrameU64 (writeFrameU64 bm p off v) p off = v % 2 ^ 64 := by
  unfold writeFrameU64 modFrame
  cases hg : bm.frames p with
  | none => rw [hg] at hf; simp at hf
  | some page =>
    unfold readFrameU64
    simp [frames_setFrameEntry, getU64_putU64]

theorem frames_isSome_writeFrame (bm : BufferManager) (p : PageID) (off v : Nat) (q : PageID) :
    ((writeFrameU64 bm p off v).frames q).isSome = (bm.frames q).isSome := by
  unfold writeFrameU64 modFrame
  cases hf : bm.frames p with
  | none => rfl
  | some page =>
    rw [frames_setFrameEntry]
    by_cases hq : q = p <;> simp [hq, hf]

theorem buildGroupLoop_spec :
    ∀ (children : List PageID) (bm : BufferManager) (nodeID : PageID) (n : Nat)
      (r : Except Err Nat) (bm' : BufferManager),
      buildGroupLoop bm nodeID n children = (r, bm') →
      nodeID ∉ children →
      (∀ c ∈ children, (bm.frames c).isSome) →
      (bm.frames nodeID).isSome →
      (∀ c ∈ children, readFrameU64 bm c btree.leafHeaderSize < 2 ^ 64) →
      ((∀ q, q ≠ nodeID →
          ((bm'.frames q).map fun f => f.data) = ((bm.frames q).map fun f => f.data)) ∧
       (∀ off, off / 8 < 2 * n + 3 →
          readFrameU64 bm' nodeID off = readFrameU64 bm nodeID off) ∧
       (∀ j, (hj : j < children.length) →
          readFrameU64 bm' nodeID
            (btree.internalHeaderSize + (n + j) * (btree.ptrSize + keySize) + btree.ptrSize)
            = readFrameU64 bm (children.get ⟨j, hj⟩) btree.leafHeaderSize)) := by
  intro children
  induction children with
  | nil =>
    intro bm nodeID n r bm' h _ _ _ _
    simp only [buildGroupLoop] at h
    cases h
    refine ⟨fun q _ => rfl, fun off _ => rfl, fun j hj => absurd hj (by simp)⟩
  | cons c rest ih =>
    intro bm nodeID n r bm' h hnin hres hnres hkeys
    obtain ⟨page, hpage⟩ := Option.isSome_iff_exists.mp (hres c (by simp))
    have hpin : PinPage bm c
        = (Except.ok c, setFrameEntry bm c { page with pinCount := page.pinCount + 1 }) := by
      simp [PinPage, hpage]
    set bmP := setFrameEntry bm c { page with pinCount := page.pinCount + 1 } with hbmP
    set fk := readFrameU64 bmP c btree.leafHeaderSize with hfk
    set bm2 := (UnpinPage bmP c false).2 with hbm2
    set koff := btree.internalHeaderSize + n * (btree.ptrSize + keySize) + btree.ptrSize
      with hkoff
    set bm3 := writeFrameU64 bm2 nodeID koff fk with hbm3
    set bm4 := writeFrameU64 bm3 nodeID (koff + keySize) (Sizzle c) with hbm4
    have hstep : buildGroupLoop bm nodeID n (c :: rest)
        = buildGroupLoop bm4 nodeID (n + 1) rest := by
      rw [buildGroupLoop, hpin]
    rw [hstep] at h
    -- data of every page other than the node is untouched up to bm4
    have hdP : ∀ q, ((bmP.frames q).map fun f => f.data) = ((bm.frames q).map fun f => f.data) := by
      intro q
      have t2 := frames_data_PinPage_resident bm c (by simp [hpage]) q
      rw [hpin] at t2
      exact t2
    have hd2 : ∀ q, ((bm2.frames q).map fun f => f.data) = ((bm.frames q).map fun f => f.data) := by
      intro q
      have t1 := frames_data_UnpinPage bmP c false q
      rw [← hbm2] at t1
      exact t1.trans (hdP q)
    have hd4 : ∀ q, q ≠ nodeID →
        ((bm4.frames q).map fun f => f.data) = ((bm.frames q).map fun f => f.data) := by
      intro q hq
      rw [hbm4, frames_data_writeFrame_ne _ _ _ _ _ hq, hbm3,
        frames_data_writeFrame_ne _ _ _ _ _ hq]
      exact hd2 q
    -- slot arithmetic
    have hkoff8 : koff / 8 = 3 + 2 * n := by
      rw [hkoff]
      simp [btree.internalHeaderSize, btree.ptrSize, keySize]
      omega
    have hpoff8 : (koff + keySize) / 8 = 4 + 2 * n := by
      rw [hkoff]
      simp [btree.internalHeaderSize, btree.ptrSize, keySize]
      omega
    -- node reads below the written slots are untouched up to bm4
    have hnlow : ∀ off, off / 8 < 2 * n + 3 →
        readFrameU64 bm4 nodeID off = readFrameU64 bm nodeID off := by
      intro off hoff
      rw [hbm4, readFrame_writeFrame_ne _ _ _ _ _ _ (by omega : off / 8 ≠ (koff + keySize) / 8),
        hbm3, readFrame_writeFrame_ne _ _ _ _ _ _ (by omega : off / 8 ≠ koff / 8)]
      exact readFrame_congr _ _ _ _ (hd2 nodeID)
    -- residency of the node and the remaining children carries to bm4
    have hsome4 : ∀ q, ((bm4.frames q).isSome) = ((bm2.frames q).isSome) := by
      intro q
      rw [hbm4, frames_isSome_writeFrame, hbm3, frames_isSome_writeFrame]
    have hsome2 : ∀ q, ((bm2.frames q).isSome) = ((bm.frames q).isSome) := by
      intro q
      have := congrArg Option.isSome (hd2 q)
      simpa using this
    have hres4 : ∀ c' ∈ rest, (bm4.frames c').isSome := by
      intro c' hc'
      rw [hsome4, hsome2]
      exact hres c' (by simp [hc'])
    have hnres4 : (bm4.frames nodeID).isSome := by
      rw [hsome4, hsome2]
      exact hnres
    have hread4 : ∀ c' ∈ rest, readFrameU64 bm4 c' btree.leafHeaderSize
        = readFrameU64 bm c' btree.leafHeaderSize := by
      intro c' hc'
      have hcne : c' ≠ nodeID := fun he => hnin (by simp [← he, hc'])
      exact readFrame_congr _ _ _ _ (hd4 c' hcne)
    have hkeys4 : ∀ c' ∈ rest, readFrameU64 bm4 c' btree.leafHeaderSize < 2 ^ 64 := by
      intro c' hc'
      rw [hread4 c' hc']
      exact hkeys c' (by simp [hc'])
    have hnin4 : nodeID ∉ rest := fun hx => hnin (by simp [hx])
    obtain ⟨iha, ihb, ihc⟩ := ih bm4 nodeID (n + 1) r bm' h hnin4 hres4 hnres4 hkeys4
    -- the key written for this child
    have hfkval : fk = readFrameU64 bm c btree.leafHeaderSize := by
      rw [hfk]
      exact readFrame_congr _ _ _ _ (hdP c)
    have hkey0 : readFrameU64 bm' nodeID koff = readFrameU64 bm c btree.leafHeaderSize := by
      have h1 : readFrameU64 bm' nodeID koff = readFrameU64 bm4 nodeID koff :=
        ihb koff (by omega)
      have h2 : readFrameU64 bm4 nodeID koff = fk % 2 ^ 64 := by
        rw [hbm4, readFrame_writeFrame_ne _ _ _ _ _ _ (by omega : koff / 8 ≠ (koff + keySize) / 8),
          hbm3]
        refine readFrame_writeFrame_same _ _ _ _ ?_
        rw [hsome2]
        exact hnres
      rw [h1, h2, hfkval]
      exact Nat.mod_eq_of_lt (hkeys c (by simp))
    refine ⟨?_, ?_, ?_⟩
    · intro q hq
      rw [iha q hq]
      exact hd4 q hq
    · intro off hoff
      rw [ihb off (by omega)]
      exact hnlow off hoff
    · intro j hj
      cases j with
      | zero =>
        simpa [← hkoff] using hkey0
      | succ j' =>
        have hj' : j' < rest.length := by simpa using hj
        have := ihc j' hj'
        have harith : n + (j' + 1) = n + 1 + j' := by omega
        rw [harith]
        rw [this]
        rw [List.get_cons_succ]
        exact hread4 _ (List.get_mem rest j' hj')

end bulkLoadHelpers

/-!  Claims.  -/

section claims

open manager btree loader exhibits exhibits1

/-- Claim C1.  The claim says Get returns the last value written for every
inserted key after any Insert sequence, duplicate inserts overwriting in
place.  It fails at the second leaf split: `stateA` is the manager state
after inserting (k, 5000 + k) for k = 1 .. 381 ascending into a fresh
tree (transcribed slot for slot; root page 2 separates leaves 0 and 1 at
key 128), and before inserting key 382 a lookup of key 128 duly returns
5128; inserting (382, 5382) splits leaf 1 and promotes (255, new page 3)
into the root, where insertInternalEntry writes the new child id at the
child slot *before* the promoted key and shifts without preserving the
trailing pointer, overwriting the pointer to leaf 1 — after the
successful insert, Get on the previously inserted and never-overwritten
key 128 fails with NotFound. -/
theorem c1_second_split_loses_inserted_key :
    (Get 10 treeA stateA 128).1 = Except.ok 5128 ∧
    stepA.1 = Except.ok () ∧
    (Get 10 stepA.2.1 stepA.2.2 128).1 = Except.error Err.NotFound :=
  ⟨rfl, rfl, rfl⟩

/-- Claim C2.  The claim says the leaf chain always visits exactly the
inserted keys, each once, in ascending order — every split relinking old
leaf, new leaf and former successor consistently.  It fails when a leaf
with a live next pointer splits: `stateB` is the manager state after
inserting (k, 5000 + k) for k = 382 down to 2 into a fresh tree
(transcribed slot for slot; chain 0 -> 1 with key 300 in leaf 1), and the
chain scan from the leftmost leaf contains key 300.  Inserting key 1
splits leaf 0 — but splitLeaf has already overwritten old.next with
old.prev when insertLeaf re-reads it for the new leaf's next pointer, so
the new leaf's next pointer becomes 0 instead of 1, and leaf 1 (whose
prev pointer is also never updated) drops off the chain: after the
successful insert the scan no longer contains the inserted key 300. -/
theorem c2_leaf_split_drops_chain_successor :
    (chainScanKeys 12 stateB 0).contains 300 = true ∧
    stepB.1 = Except.ok () ∧
    (chainScanKeys 12 stepB.2.2 0).contains 300 = false :=
  ⟨rfl, rfl, rfl⟩

/-- Claim C3.  The claim says an Insert whose split cannot allocate a page
fails with PoolExhausted leaving the tree untouched.  In the source the
split paths discard the NewPage error (`newPageID, newData, _ := ...`)
and immediately dereference the then-nil page pointer: `stateC` is the
manager state after filling the root leaf with keys 1..254 and allocating
99 further pages that stay pinned, so every frame of the pool is pinned
(transcribed slot for slot), and inserting key 255 — which must split —
ends in the modelled nil-pointer panic, not in a PoolExhausted failure. -/
theorem c3_split_allocation_failure_panics :
    stepC.1 = Except.error Err.Panic :=
  rfl

/-- Claim C4, counterexample.  Pinning page 5 on a fresh simple manager —
page 5 resident nowhere, backing store empty — succeeds and installs a
fabricated all-zero page instead of failing with NotFound. -/
theorem c4_simple_pin_fabricates_unknown_page :
    (manager1.PinPage manager1.NewBufferManager 5).1 = Except.ok 5 ∧
    manager1.readFrameU64 (manager1.PinPage manager1.NewBufferManager 5).2 5 0 = 0 :=
  ⟨rfl, rfl⟩

/-- Claim C4, amended.  In the clock manager, pinning a page that is in
neither the page table nor the backing store fails with NotFound; the
simple manager variant instead fabricates a zeroed page (see the
counterexample). -/
theorem c4_clock_pin_unknown_fails_not_found :
    ∀ (bm : manager0.BufferManager) (p : manager.PageID),
      bm.pageTable p = none → bm.disk p = none →
      (manager0.PinPage bm p).1 = Except.error Err.NotFound := by
  intro bm p h1 h2
  simp [manager0.PinPage, h1, h2]

/-- Witness for the amended claim C4 on a fresh clock manager and page 5. -/
theorem c4_clock_pin_unknown_fails_not_found_witness :
    manager0.NewBufferManager.pageTable 5 = none ∧
    manager0.NewBufferManager.disk 5 = none ∧
    (manager0.PinPage manager0.NewBufferManager 5).1 = Except.error Err.NotFound :=
  ⟨rfl, rfl, c4_clock_pin_unknown_fails_not_found manager0.NewBufferManager 5 rfl rfl⟩

/-- Claim C5, counterexample.  Bulk-loading the 255 records (k, 5000 + k),
k = 1..255, produces two leaves (pages 0 and 1), but the first leaf's
next-leaf pointer is 0: createLeafNodes never links the leaves it
creates, so the pointers are not set to the construction-order
neighbours and a chain scan stops after the first leaf. -/
theorem c5_bulk_load_leaves_unlinked :
    c5Run.1 = Except.ok [0, 1] ∧
    manager1.readFrameU64 c5Run.2 0 16 = 0 :=
  ⟨rfl, rfl⟩

/-- Claim C5, amended.  Bulk loading packs the sorted records into leaves
whose construction-order concatenation is exactly the input sorted
ascending by key, but sets no chain pointers: for EVERY record list and
start state, every leaf a successful createLeafNodes returns has
next-leaf and previous-leaf pointers 0 in the final state; and
concretely, on the spec's scenario input (5,50), (1,10), (3,30) the
single leaf holds (1,10), (3,30), (5,50), and on the 255-record input
the two leaves' entries concatenate to the sorted input. -/
theorem c5_bulk_load_sorted_but_unlinked :
    (∀ (entries : List loader.entry) (bm : manager1.BufferManager)
        (leaves : List manager.PageID) (bm' : manager1.BufferManager),
      loader.createLeafNodes bm entries = (Except.ok leaves, bm') →
      ∀ l ∈ leaves,
        manager1.readFrameU64 bm' l 16 = 0 ∧ manager1.readFrameU64 bm' l 24 = 0) ∧
    leafEntriesOf c5ScenarioRun.2 0 = [(1, 10), (3, 30), (5, 50)] ∧
    leafEntriesOf c5Run.2 0 ++ leafEntriesOf c5Run.2 1 =
      (List.range 255).map (fun i => (i + 1, i + 5001)) :=
  ⟨createLeafNodes_pointers_zero, rfl, by decide⟩

/-- Witness for the amended claim C5: the scenario run itself — one leaf,
page 0 — has both chain pointers 0 in its final state. -/
theorem c5_bulk_load_sorted_but_unlinked_witness :
    manager1.readFrameU64 c5ScenarioRun.2 0 16 = 0 ∧
    manager1.readFrameU64 c5ScenarioRun.2 0 24 = 0 :=
  c5_bulk_load_sorted_but_unlinked.1
    (loader.sortEntries c5ScenarioRecords) manager1.NewBufferManager
    [0] c5ScenarioRun.2 (Prod.ext_iff.mpr ⟨rfl, rfl⟩) 0 (by simp)

/-- Claim C6, counterexample.  On the explicit 257-leaf input (leaf i has
first key 1000000 + i), the level construction builds internal node 500
over leaves 0..254, internal node 501 over leaves 255..256, and the root
502 over those two.  The root's only separator should be the first key of
its second child — node 501, whose first key sits at byte 24 of the
internal layout and is 1000256 — but buildTreeFromLeaves reads byte 32 of
every child, which for an internal child is its second child pointer, so
the separator stored is the page id 256, not the key. -/
theorem c6_upper_level_separator_is_child_pointer :
    (c6Run.map fun r => r.1) = some (Except.ok 502) ∧
    manager1.readFrameU64 c6FinalBM 502 32 = 501 ∧
    manager1.readFrameU64 c6FinalBM 501 24 = 1000256 ∧
    manager1.readFrameU64 c6FinalBM 502 24 = 256 ∧
    manager1.readFrameU64 c6FinalBM 502 24 ≠ manager1.readFrameU64 c6FinalBM 501 24 :=
  ⟨rfl, rfl, rfl, rfl, by decide⟩

/-- Claim C6, amended.  At the level directly above the leaves the
construction is right, because byte 32 of a leaf child is its first
entry's key: for EVERY successful group loop over children resident in
the start state (node not among them), the j-th separator written into
the node equals the uint64 at byte offset 32 — the first key of a leaf —
of the j-th child in the start state; and concretely each separator of
node 500 over the 257-leaf input equals the corresponding leaf's first
key.  At higher levels the same byte-32 read returns an internal child's
second pointer instead of its first key (see the counterexample). -/
theorem c6_leaf_level_separators_correct :
    (∀ (children : List manager.PageID) (bm : manager1.BufferManager)
        (nodeID : manager.PageID) (n : Nat) (r : Except manager.Err Nat)
        (bm' : manager1.BufferManager),
      loader.buildGroupLoop bm nodeID n children = (r, bm') →
      nodeID ∉ children →
      (∀ c ∈ children, (bm.frames c).isSome) →
      (bm.frames nodeID).isSome →
      (∀ c ∈ children, manager1.readFrameU64 bm c btree.leafHeaderSize < 2 ^ 64) →
      ∀ j, (hj : j < children.length) →
        manager1.readFrameU64 bm' nodeID
            (btree.internalHeaderSize + (n + j) * (btree.ptrSize + loader.keySize)
              + btree.ptrSize)
          = manager1.readFrameU64 bm (children.get ⟨j, hj⟩) btree.leafHeaderSize) ∧
    (∀ j : Nat, j < 254 →
      manager1.readFrameU64 c6FinalBM 500 (24 + 16 * j) = 1000001 + j) :=
  ⟨fun children bm nodeID n r bm' h h1 h2 h3 h4 =>
    (buildGroupLoop_spec children bm nodeID n r bm' h h1 h2 h3 h4).2.2, by decide⟩

/-- Witness for the amended claim C6: a concrete group loop over the
resident leaves 1 and 2 of the 257-leaf state writes leaf 1's first key
as separator 0 of node 0, and separator 7 of node 500 is leaf 8's first
key 1000008. -/
theorem c6_leaf_level_separators_correct_witness :
    manager1.readFrameU64 (loader.buildGroupLoop c6State 0 0 [1, 2]).2 0 24
        = manager1.readFrameU64 c6State 1 32 ∧
    manager1.readFrameU64 c6FinalBM 500 (24 + 16 * 7) = 1000008 :=
  ⟨c6_leaf_level_separators_correct.1 [1, 2] c6State 0 0
      (loader.buildGroupLoop c6State 0 0 [1, 2]).1
      (loader.buildGroupLoop c6State 0 0 [1, 2]).2
      rfl (by decide) (by decide) (by decide) (by decide) 0 (by decide),
   c6_leaf_level_separators_correct.2 7 (by decide)⟩

/-- Claim C7.  In every clock-manager state — reachable or not — a frame
whose pin count is positive is never the eviction victim: the sweep skips
pinned frames, and both allocation (NewPage) and a pin that must load
from the backing store (PinPage on a page-table miss) overwrite exactly
the frame the sweep returned. -/
theorem c7_clock_never_selects_pinned_victim :
    (∀ (bm : manager0.BufferManager) (i rem idx : Nat),
      (manager0.findVictimLoop bm i rem).1 = Except.ok idx →
      (bm.frames idx).pinCount ≤ 0) ∧
    (∀ (bm : manager0.BufferManager) (pid idx : Nat),
      (manager0.NewPage bm).1 = Except.ok (pid, idx) →
      (bm.frames idx).pinCount ≤ 0) ∧
    (∀ (bm : manager0.BufferManager) (p : manager.PageID) (idx : Nat),
      bm.pageTable p = none →
      (manager0.PinPage bm p).1 = Except.ok idx →
      (bm.frames idx).pinCount ≤ 0) := by
  refine ⟨fun bm i rem idx h => findVictimLoop_ok_unpinned rem bm i idx h, ?_, ?_⟩
  · intro bm pid idx h
    unfold manager0.NewPage at h
    simp only at h
    rcases hfv : manager0.findVictim { bm with nextPageID := bm.nextPageID + 1 } with ⟨r, bm1⟩
    rw [hfv] at h
    cases r with
    | error e => simp at h
    | ok victimIdx =>
      simp only at h
      have hidx : victimIdx = idx := by
        by_cases hd : (bm1.frames victimIdx).isDirty <;> simp [hd] at h <;> exact h.2
      have h1 : (manager0.findVictim { bm with nextPageID := bm.nextPageID + 1 }).1
          = Except.ok victimIdx := by rw [hfv]
      have := findVictimLoop_ok_unpinned (2 * manager.MaxFrames) _ 0 victimIdx h1
      simpa [hidx] using this
  · intro bm p idx hpt h
    unfold manager0.PinPage at h
    rw [hpt] at h
    cases hd : bm.disk p with
    | none => rw [hd] at h; simp at h
    | some srcIdx =>
      rw [hd] at h
      simp only at h
      rcases hfv : manager0.findVictim bm with ⟨r, bm1⟩
      rw [hfv] at h
      cases r with
      | error e => simp at h
      | ok victimIdx =>
        simp only at h
        have hidx : victimIdx = idx := by
          by_cases hdd : (bm1.frames victimIdx).isDirty <;> simp [hdd] at h <;> exact h
        have h1 : (manager0.findVictim bm).1 = Except.ok victimIdx := by rw [hfv]
        have := findVictimLoop_ok_unpinned (2 * manager.MaxFrames) bm 0 victimIdx h1
        simpa [hidx] using this

/-- Witness for claim C7: on a fresh clock manager the first NewPage
selects frame 0, whose pin count is 0. -/
theorem c7_clock_never_selects_pinned_victim_witness :
    (manager0.NewPage manager0.NewBufferManager).1 = Except.ok (0, 0) ∧
    (manager0.NewBufferManager.frames 0).pinCount ≤ 0 :=
  ⟨rfl, c7_clock_never_selects_pinned_victim.2.1 manager0.NewBufferManager 0 0 rfl⟩

/-- Claim C8, counterexample.  In the clock manager a dirty eviction
stores `&victim.data` — a pointer into the frame — into the backing
store: `c8Unpinned` is the state after 100 NewPage calls, writing marker
7 into page 0 through its pinned buffer and unpinning it dirty; the next
NewPage evicts frame 0 (dirty, first word 7), yet the backing store entry
for page 0 then reads the incoming zeroed page 100, not the bytes the
write-back was meant to preserve. -/
theorem c8_clock_writeback_loses_dirty_bytes :
    getU64 (c8Unpinned.frames 0).data 0 = 7 ∧
    (c8Unpinned.frames 0).isDirty = true ∧
    ((manager0.diskBytes c8Final 0).map fun p => getU64 p 0) = some 0 :=
  ⟨rfl, rfl, rfl⟩

/-- Claim C8, amended.  In the simple manager — whose only eviction site
is NewPage — evicting a clean frame leaves the backing store unchanged,
and a dirty victim's bytes are written back (before the frame is deleted
and the fresh page installed); in the clock manager the write-back
instead stores a reference into the frame, so the store entry later
reflects the incoming page's bytes (see the counterexample). -/
theorem c8_simple_eviction_writeback_discipline :
    ∀ (bm : manager1.BufferManager) (evictID : manager.PageID)
      (rest : List manager.PageID) (page : manager1.bufferPage),
      bm.freeList = evictID :: rest →
      manager.MaxFrames ≤ bm.framesLen →
      bm.frames evictID = some page →
      ((page.isDirty = false → ((manager1.NewPage bm).2).disk = bm.disk) ∧
       (page.isDirty = true → ((manager1.NewPage bm).2).disk evictID = some page.data)) := by
  intro bm evictID rest page hfl hlen hfr
  unfold manager1.NewPage
  simp only
  rw [if_pos (by simpa using hlen), hfl]
  simp only [hfr]
  constructor
  · intro hcl
    simp [hcl, manager1.eraseFrame, manager1.setFrameEntry]
  · intro hdt
    simp [hdt, manager1.eraseFrame, manager1.setFrameEntry]

/-- Witness for the amended claim C8: evicting the clean resident page 55
from the full pool `c8w` leaves the backing store unchanged. -/
theorem c8_simple_eviction_writeback_discipline_witness :
    c8w.freeList = 55 :: [] ∧
    manager.MaxFrames ≤ c8w.framesLen ∧
    c8w.frames 55 = some { pageID := 55, data := Page.zeros, isDirty := false, pinCount := 0 } ∧
    ((manager1.NewPage c8w).2).disk = c8w.disk :=
  ⟨rfl, by decide, rfl,
    (c8_simple_eviction_writeback_discipline c8w 55 []
      { pageID := 55, data := Page.zeros, isDirty := false, pinCount := 0 }
      rfl (by decide) rfl).1 rfl⟩

/-- Claim C9, counterexample.  In the simple manager UnpinPage performs no
underflow check: allocate page 0 (pin count 1), unpin it (0), and a
second unpin still succeeds and leaves the pin count at -1 instead of
failing with an invariant violation. -/
theorem c9_simple_unpin_pin_count_negative :
    (manager1.UnpinPage
        (manager1.UnpinPage (manager1.NewPage manager1.NewBufferManager).2 0 false).2
        0 false).1 = Except.ok () ∧
    (((manager1.UnpinPage
        (manager1.UnpinPage (manager1.NewPage manager1.NewBufferManager).2 0 false).2
        0 false).2.frames 0).map fun f => f.pinCount) = some (-1) :=
  ⟨rfl, rfl⟩

/-- Claim C9, amended.  In the clock manager, unpinning a resident page
whose pin count is already 0 panics ("pin count negative", the spec's
InvariantViolation — modelled as that failure) before any caller can
observe the decremented count; with a positive pin count the unpin
succeeds, decrements the count and ORs the dirty flag.  The simple
manager variant instead decrements unchecked and lets the count go
negative (see the counterexample). -/
theorem c9_clock_unpin_underflow_checked :
    ∀ (bm : manager0.BufferManager) (p : manager.PageID) (idx : Nat) (d : Bool),
      bm.pageTable p = some idx →
      (((bm.frames idx).pinCount = 0 →
          (manager0.UnpinPage bm p d).1 = Except.error Err.InvariantViolation) ∧
       (0 < (bm.frames idx).pinCount →
          (manager0.UnpinPage bm p d).1 = Except.ok () ∧
          ((manager0.UnpinPage bm p d).2.frames idx).pinCount
            = (bm.frames idx).pinCount - 1 ∧
          ((manager0.UnpinPage bm p d).2.frames idx).isDirty
            = ((bm.frames idx).isDirty || d))) := by
  intro bm p idx d hpt
  constructor
  · intro h0
    unfold manager0.UnpinPage
    rw [hpt]
    simp only
    rw [if_pos (by omega)]
  · intro hpos
    unfold manager0.UnpinPage
    rw [hpt]
    simp only
    rw [if_neg (by omega)]
    refine ⟨rfl, ?_, ?_⟩ <;> simp [manager0.setFrame]

/-- Witness for the amended claim C9: page 0 freshly allocated by the
clock manager has pin count 1, and unpinning it succeeds. -/
theorem c9_clock_unpin_underflow_checked_witness :
    (manager0.NewPage manager0.NewBufferManager).2.pageTable 0 = some 0 ∧
    0 < ((manager0.NewPage manager0.NewBufferManager).2.frames 0).pinCount ∧
    (manager0.UnpinPage (manager0.NewPage manager0.NewBufferManager).2 0 false).1
      = Except.ok () :=
  ⟨rfl, by decide,
    ((c9_clock_unpin_underflow_checked
        (manager0.NewPage manager0.NewBufferManager).2 0 0 false rfl).2 (by decide)).1⟩

/-- Claim C10, counterexample.  On the empty leaf list — produced by
bulk-loading an empty record file — buildTreeFromLeaves never returns:
each level maps the empty list to an empty parent list and recurses, so
no fuel bound reaches a result. -/
theorem c10_empty_leaf_list_never_returns :
    ¬ ∃ fuel r, loader.buildTreeFromLeaves fuel manager1.NewBufferManager [] = some r := by
  rintro ⟨f, r, h⟩
  rw [buildTreeFromLeaves_nil_none] at h
  exact Option.noConfusion h

/-- Claim C10, amended.  For every nonempty leaf list the bottom-up
construction terminates — fuel equal to the list's length suffices —
returning either a root page or the panic on a failed page allocation; on
the empty list it recurses forever (see the counterexample). -/
theorem c10_nonempty_build_terminates :
    ∀ (leaves : List manager.PageID) (bm : manager1.BufferManager),
      leaves ≠ [] →
      (loader.buildTreeFromLeaves leaves.length bm leaves).isSome = true :=
  fun leaves bm hne => buildTreeFromLeaves_terminates leaves.length leaves bm hne (Nat.le_refl _)

/-- Witness for the amended claim C10 on the one-leaf list [7]. -/
theorem c10_nonempty_build_terminates_witness :
    ([7] : List manager.PageID) ≠ [] ∧
    (loader.buildTreeFromLeaves ([7] : List manager.PageID).length
      manager1.NewBufferManager [7]).isSome = true :=
  ⟨by simp, c10_nonempty_build_terminates [7] manager1.NewBufferManager (by simp)⟩

end claims
